import Mathlib

/-!
Verification development for the `OptionsChecker` library
(`src/OptionsChecker.mjs`, the canonical richer class variant).

The JavaScript engine `_getCleanOptions` is shallowly embedded as a pure
Lean function.  JavaScript values are modelled by the inductive `Value`
(numbers are modelled as `Int`; JS floats never matter for the claims at
hand).  A JS object is an association list with unique keys in insertion
order.  Since the source mutates only the `cleanOptions` object it
allocates, the embedding threads the raw options object through every
call and returns it alongside the result, so that the read-only nature of
the raw object is a provable statement rather than a modelling artifact:
the first component of the returned pair is the raw options object as it
stands after the call.

Fallible paths (`_throwError`, i.e. `throw new Error(msg)`) are modelled
with `Except String`, the error carrying the thrown `Error`'s message
string.  A caught exception that is later interpolated into a template
string renders as `"Error: " ++ message`, exactly as JavaScript
stringifies an `Error` object; the type `JsMsg` records whether the
pending failure message is a plain string or a caught `Error` object so
that this stringification point is modelled faithfully.

Caller-supplied hooks (`customCheck`, `transformFunction`) are modelled
as pure Lean functions, which encodes the standing assumption that hooks
do not themselves mutate their argument.
-/

/-- A JavaScript runtime value, as far as the options checker can observe
it.  `undef` is the absent/`undefined` sentinel.  Objects carry the name
of their constructor (`"Object"` for plain object literals) together with
their own enumerable properties in insertion order.  Functions are
modelled as an opaque tag: the engine only ever applies `typeof` to
function-typed option values. -/
inductive Value where
  | undef : Value
  | bool (b : Bool) : Value
  | num (n : Int) : Value
  | str (s : String) : Value
  | arr (elems : List Value) : Value
  | obj (className : String) (fields : List (String × Value)) : Value
  | fn : Value

/-- A JS object: association list from property name to value, unique
keys, insertion order. -/
abbrev Obj := List (String × Value)

/-- Property read `o[name]`: `undefined` when the key is missing. -/
def jsGet (o : Obj) (name : String) : Value :=
  match o with
  | [] => .undef
  | (k, v) :: rest => if k = name then v else jsGet rest name

/-- Whether the object has an own property called `name`. -/
def jsHas (o : Obj) (name : String) : Bool :=
  match o with
  | [] => false
  | (k, _) :: rest => k = name || jsHas rest name

/-- Property write `o[name] = v` for a key already present (replaces the
first, i.e. only, binding). When the key is absent the binding is
appended, matching JS property creation order. -/
def jsSet (o : Obj) (name : String) (v : Value) : Obj :=
  match o with
  | [] => [(name, v)]
  | (k, w) :: rest => if k = name then (k, v) :: rest else (k, w) :: jsSet rest name v

def Value.isUndef : Value → Bool
  | .undef => true
  | _ => false

/-- The JavaScript `typeof` operator on the modelled values.  Arrays are
objects at this level, exactly as in JS. -/
def typeOf : Value → String
  | .undef => "undefined"
  | .bool _ => "boolean"
  | .num _ => "number"
  | .str _ => "string"
  | .arr _ => "object"
  | .obj _ _ => "object"
  | .fn => "function"

/-- JavaScript truthiness of a value (`if (v)`). -/
def truthy : Value → Bool
  | .undef => false
  | .bool b => b
  | .num n => n ≠ 0
  | .str s => s ≠ ""
  | .arr _ => true
  | .obj _ _ => true
  | .fn => true

/-- Template-literal interpolation of a value.  Strings interpolate as
themselves (unquoted), numbers and booleans in their decimal/word form,
`undefined` as the word `undefined`.  Array/object/function renderings
are approximated; no modelled message interpolates them. -/
def jsTemplate : Value → String
  | .undef => "undefined"
  | .bool b => cond b "true" "false"
  | .num n => toString n
  | .str s => s
  | .arr _ => "[array]"
  | .obj _ _ => "[object Object]"
  | .fn => "[function]"

/-- `value.constructor.name`, used in the object-class failure message.
Only reachable for values with `typeof === 'object'`. -/
def constructorName : Value → String
  | .obj cn _ => cn
  | .arr _ => "Array"
  | .num _ => "Number"
  | .str _ => "String"
  | .bool _ => "Boolean"
  | .fn => "Function"
  | .undef => "undefined"

/-- The `instanceof` check against a nominal class, approximated by the
constructor tag; every object is an instance of `Object` and arrays are
instances of `Array`. -/
def instanceOf (v : Value) (className : String) : Bool :=
  match v with
  | .obj cn _ => cn = className || className = "Object"
  | .arr _ => className = "Array" || className = "Object"
  | _ => false

/-- Source `sPrettyPrint` (OptionsChecker.mjs lines 167-182). -/
def sPrettyPrint : Value → String
  | .str s => "'" ++ s ++ "'"
  | .arr _ => "[Array]"
  | .obj cn _ => if cn = "Object" then "[Object]" else "[" ++ cn ++ "]"
  | v => jsTemplate v

/-- ASCII lower-casing of one character, the case relevant to
`toLowerCase()` on the schema's type tokens. -/
def jsCharToLower (c : Char) : Char :=
  if 'A' ≤ c ∧ c ≤ 'Z' then Char.ofNat (c.toNat + 32) else c

/-- The JS `toLowerCase()` call on a type token. -/
def jsToLowerCase (s : String) : String :=
  ⟨s.data.map jsCharToLower⟩

/-- Source `_normalizeTypeString` (OptionsChecker.mjs lines 145-166). -/
def _normalizeTypeString (typeStr : String) : String :=
  let type := jsToLowerCase typeStr
  if type = "bool" then "boolean"
  else if type = "func" then "function"
  else if type = "nonemptystring" then "NonEmptyString"
  else if type = "numbergreaterthanzero" then "NumberGreaterThanZero"
  else if type = "nonzeronumber" then "NonZeroNumber"
  else type

/-- A pending check-failure message.  `plain` is an ordinary string;
`errObj` is a caught `Error` object (from a nested checker), which
JavaScript stringifies as `"Error: " ++ message` when interpolated. -/
inductive JsMsg where
  | plain (s : String) : JsMsg
  | errObj (s : String) : JsMsg

/-- How the message renders inside a template literal. -/
def JsMsg.render : JsMsg → String
  | .plain s => s
  | .errObj s => "Error: " ++ s

/-- Source `_throwError` (OptionsChecker.mjs lines 431-435): the message
string carried by the thrown `Error`. -/
def _throwError (message : JsMsg) (context : String) : String :=
  context ++ " : " ++ message.render

/-- The non-recursive fields of an option definition.  Fields that the
source tests with `=== undefined` and may carry arbitrary JS values
(`default`, `strictDefault`, `type`, `customCheckDescription`) are
modelled as `Value` with `.undef` meaning absent, since JavaScript cannot
distinguish a missing property from one set to `undefined`.  Numeric
bounds are modelled as `Option Int` (they are schema-author-controlled
numbers). -/
structure DefBase where
  required : Bool := false
  default : Value := .undef
  strictDefault : Value := .undef
  type : Value := .undef
  objectClass : Option String := none
  minLength : Option Int := none
  maxLength : Option Int := none
  min : Option Int := none
  max : Option Int := none
  customCheck : Option (Value → Bool) := none
  customCheckDescription : Value := .undef
  transformFunction : Option (Value → Value) := none

/-- An option definition: the flat fields plus the two recursive ones,
`objectDefinition` (a nested schema) and `elementDefinition` (a
definition applied to each array element). -/
inductive OptionDef where
  | mk (base : DefBase)
       (objectDefinition : Option (List (String × OptionDef)))
       (elementDefinition : Option OptionDef) : OptionDef

abbrev Schema := List (String × OptionDef)

def OptionDef.base : OptionDef → DefBase
  | .mk b _ _ => b

def OptionDef.objectDefinition : OptionDef → Option Schema
  | .mk _ od _ => od

def OptionDef.elementDefinition : OptionDef → Option OptionDef
  | .mk _ _ ed => ed

/-- A definition with no nested schema parts. -/
def mkDef (b : DefBase) : OptionDef := .mk b none none

/-- The in-place rewrite the source performs when the normalized type is
`NonEmptyString` (OptionsChecker.mjs lines 223-230): `type` becomes
`'string'`, `minLength` becomes 1, `maxLength` is cleared.  The rewrite
is idempotent, so performing it per invocation on a pure copy is
equivalent to the source's in-place mutation of the stored definition. -/
def nesRewrite (b : DefBase) : DefBase :=
  { b with type := .str "string", minLength := some 1, maxLength := none }

mutual
/-- Structural depth of a definition, ignoring the flat fields; used as
the termination measure of the engine. -/
def defDepth : OptionDef → Nat
  | .mk _ od ed => 1 + schemaOptDepth od + defOptDepth ed

def schemaOptDepth : Option (List (String × OptionDef)) → Nat
  | none => 0
  | some s => 1 + schemaDepth s

def schemaDepth : List (String × OptionDef) → Nat
  | [] => 0
  | (_, d) :: rest => 1 + defDepth d + schemaDepth rest

def defOptDepth : Option OptionDef → Nat
  | none => 0
  | some d => 1 + defDepth d
end

/-- Source lines 393-400: the custom check, run only when the built-in
checks did not fail; a falsy result turns into a failure whose message is
built from `customCheckDescription`. -/
def customCheckPhase (optionName : String) (d1 : OptionDef) (value : Value)
    (checkFail : Bool) (checkFailMessage : JsMsg) : Bool × JsMsg :=
  if checkFail then (checkFail, checkFailMessage)
  else
    match d1.base.customCheck with
    | none => (checkFail, checkFailMessage)
    | some f =>
      if f value then (checkFail, checkFailMessage)
      else (true, .plain (optionName ++ " must be " ++ jsTemplate d1.base.customCheckDescription
              ++ ", " ++ sPrettyPrint value ++ " given"))

/-- Source line 403: the effective strict-default for one option — the
option's own `strictDefault` (by JS truthiness) when defined, else the
schema-wide flag. -/
def effectiveStrictDefault (d1 : OptionDef) (strictDefault : Bool) : Bool :=
  match d1.base.strictDefault with
  | .undef => strictDefault
  | v => truthy v

/-- Source lines 402-424: the resolution step.  On a failed check the
effective strict-default decides between a hard failure and assigning the
default; on success the value assigned by the object/array branch (if
any) or the raw value is kept and the transform function, if defined, is
applied — a transform returning the undefined sentinel is a hard
failure. -/
def resolveOption (optionName : String) (d1 : OptionDef) (value : Value) (contextStr : String)
    (strictDefault : Bool) (checkFail : Bool) (checkFailMessage : JsMsg)
    (assignedVal : Option Value) : Except String Value :=
  if checkFail then
    let optionStrictDefault := effectiveStrictDefault d1 strictDefault
    if optionStrictDefault || d1.base.default.isUndef then
      .error (_throwError checkFailMessage contextStr)
    else
      .ok d1.base.default
  else
    let assigned :=
      match assignedVal with
      | some w => w
      | none => value
    match d1.base.transformFunction with
    | none => .ok assigned
    | some f =>
      let t := f assigned
      if t.isUndef then
        .error (_throwError
          (.plain ("Transform function returned undefined value for option " ++ optionName))
          contextStr)
      else .ok t

/-- Replacing the flat fields of a definition does not change its
structural depth. -/
theorem defDepth_mk_base (b : DefBase) (d : OptionDef) :
    defDepth (.mk b d.objectDefinition d.elementDefinition) = defDepth d := by
  cases d with
  | mk b' od ed => simp [defDepth, OptionDef.objectDefinition, OptionDef.elementDefinition]

/-- Source lines 238-244: the `function`/`boolean` arm of the check
switch — an exact run-time type match; the failure message interpolates
the definition's original `type` field. -/
def checkBooleanFunction (optionName : String) (b : DefBase) (definitionType : String)
    (value : Value) : Bool × JsMsg :=
  if typeOf value = definitionType then (false, .plain "")
  else
    (true, .plain (optionName ++ " should be a " ++ jsTemplate b.type ++ ", "
      ++ sPrettyPrint (.str (typeOf value)) ++ " given"))

/-- Source lines 246-264: the `number` arm — run-time type must be
numeric, then the `min` and the `max` bound are checked in sequence (a
later failure overwrites the pending message). -/
def checkNumber (optionName : String) (b : DefBase) (value : Value) : Bool × JsMsg :=
  match value with
  | .num n =>
    let r1 : Bool × JsMsg :=
      match b.min with
      | some mn =>
        if n < mn then
          (true, .plain ("Number '" ++ optionName ++ "' should be equal to or greater than "
            ++ toString mn ++ ", " ++ toString n ++ " given"))
        else (false, .plain "")
      | none => (false, .plain "")
    match b.max with
    | some mx =>
      if n > mx then
        (true, .plain ("Number '" ++ optionName ++ "' should be equal to or lesser than "
          ++ toString mx ++ ", " ++ toString n ++ " given"))
      else r1
    | none => r1
  | _ =>
    (true, .plain (optionName ++ " should be a number, "
      ++ sPrettyPrint (.str (typeOf value)) ++ " given"))

/-- Source lines 274-279: the `NumberGreaterThanZero` arm. -/
def checkNumberGreaterThanZero (optionName : String) (value : Value) : Bool × JsMsg :=
  let ok : Bool := match value with
    | .num n => n > 0
    | _ => false
  if ok then (false, .plain "")
  else
    (true, .plain (optionName ++ " should be a number greater than zero, "
      ++ sPrettyPrint value ++ " given"))

/-- Source lines 281-286: the `NonZeroNumber` arm. -/
def checkNonZeroNumber (optionName : String) (value : Value) : Bool × JsMsg :=
  let ok : Bool := match value with
    | .num n => n ≠ 0
    | _ => false
  if ok then (false, .plain "")
  else
    (true, .plain (optionName ++ " should be a number not equal to zero, "
      ++ sPrettyPrint value ++ " given"))

/-- Source lines 288-306: the `string` arm — run-time type string, then
the `minLength` and `maxLength` character-count bounds in sequence. -/
def checkString (optionName : String) (b : DefBase) (value : Value) : Bool × JsMsg :=
  match value with
  | .str s =>
    let len : Int := s.length
    let r1 : Bool × JsMsg :=
      match b.minLength with
      | some mn =>
        if len < mn then
          (true, .plain ("String '" ++ optionName ++ "' should be at least " ++ toString mn
            ++ " characters(s) long, it has " ++ toString len))
        else (false, .plain "")
      | none => (false, .plain "")
    match b.maxLength with
    | some mx =>
      if len > mx then
        (true, .plain ("String '" ++ optionName ++ "' should not have more than "
          ++ toString mx ++ " character(s), it has " ++ toString len))
      else r1
    | none => r1
  | _ =>
    (true, .plain (optionName ++ " should be a string, "
      ++ sPrettyPrint (.str (typeOf value)) ++ " given"))

/-- Source lines 309-322: the run-time-type and `objectClass` prechecks
of the `object` arm; `some m` is a failure with message `m`. -/
def objectPreFail (optionName : String) (b : DefBase) (value : Value) : Option JsMsg :=
  if typeOf value ≠ "object" then
    some (.plain (optionName ++ " must be an object, "
      ++ sPrettyPrint (.str (typeOf value)) ++ " given"))
  else
    match b.objectClass with
    | some cls =>
      if instanceOf value cls then none
      else
        some (.plain (optionName ++ " must be an object of class " ++ cls ++ ", "
          ++ constructorName value ++ " given, will assign default"))
    | none => none

/-- Source lines 346-360: the run-time-type and length prechecks of the
`array` arm.  A `minLength` violation short-circuits (`some (m, true)`
aborts the arm); a `maxLength` violation does not (`(false, m)` inside
the right component), so element validation still runs after it, exactly
as in the source. -/
def arrayPreFail (optionName : String) (b : DefBase) (value : Value) :
    Option JsMsg × (Bool × JsMsg) :=
  match value with
  | .arr elems =>
    let len : Int := elems.length
    let minFailMsg : Option JsMsg :=
      match b.minLength with
      | some mn =>
        if len < mn then
          some (.plain ("Array '" ++ optionName ++ "' should have at least " ++ toString mn
            ++ " element(s), it has " ++ toString len))
        else none
      | none => none
    match minFailMsg with
    | some m => (some m, (true, m))
    | none =>
      match b.maxLength with
      | some mx =>
        if len > mx then
          (none, (true, .plain ("Array '" ++ optionName ++ "' should not have more than "
            ++ toString mx ++ " element(s), it has " ++ toString len)))
        else (none, (false, .plain ""))
      | none => (none, (false, .plain ""))
  | _ =>
    (some (.plain (optionName ++ " must be an array, "
      ++ sPrettyPrint (.str (typeOf value)) ++ " given")), (true, .plain ""))

mutual
/-- Source `_getCleanOptions` (OptionsChecker.mjs lines 184-428).  Walks
the schema in declaration order; per option either the absence branch or
the presence branch of `processOption` runs.  The first component of the
result is the raw options object after the call (the source never writes
to it; writes go to the freshly allocated `cleanOptions`), the second the
clean object or the thrown error message.  Skipped options (type
undefined with a supplied value, source line 214 `continue`) contribute
no entry.  The nested sub-checker construction (source lines 325-330 and
367-371) always passes its own meta-validation — its configuration is a
well-formed literal whose context string is non-empty — so it is not
re-modelled here; note that the sub-checker is created without a
`strictDefault` member, so nested validation always runs with the
strict-default flag `false`. -/
def _getCleanOptions (optionsObject : Obj) (optionsDefinition : Schema)
    (contextStr : String) (verbose debug strictDefault : Bool) :
    Obj × Except String Obj :=
  match optionsDefinition with
  | [] => (optionsObject, .ok [])
  | (optionName, optionDefinition) :: rest =>
    let value := jsGet optionsObject optionName
    let pr := processOption optionName optionDefinition value contextStr verbose debug strictDefault
    let optionsObject' := if jsHas optionsObject optionName
                          then jsSet optionsObject optionName pr.1
                          else optionsObject
    match pr.2 with
    | .error e => (optionsObject', .error e)
    | .ok entry =>
      let r := _getCleanOptions optionsObject' rest contextStr verbose debug strictDefault
      match r.2 with
      | .error e => (r.1, .error e)
      | .ok restClean =>
        (r.1, .ok (match entry with
                   | some w => (optionName, w) :: restClean
                   | none => restClean))
termination_by (schemaDepth optionsDefinition, 0)
decreasing_by
  · exact Prod.Lex.left _ _ (by simp only [schemaDepth]; omega)
  · exact Prod.Lex.left _ _ (by simp only [schemaDepth]; omega)

/-- One loop iteration of `_getCleanOptions` for option `optionName` with
supplied value `value` (`.undef` when absent).  Returns the value as it
stands after the iteration (threaded for the nested recursion) and either
the entry to add to the clean object (`some`), no entry (`none`, the
source's line 214 `continue`), or the thrown error. -/
def processOption (optionName : String) (optionDefinition : OptionDef) (value : Value)
    (contextStr : String) (verbose debug strictDefault : Bool) :
    Value × Except String (Option Value) :=
  if value.isUndef then
    -- absence branch, source lines 198-209
    if optionDefinition.base.required then
      (value, .error (_throwError
        (.plain ("Required option '" ++ optionName ++ "' not found")) contextStr))
    else if optionDefinition.base.default.isUndef then
      (value, .error (_throwError
        (.plain ("No default defined for option '" ++ optionName ++ "'")) contextStr))
    else
      (value, .ok (some optionDefinition.base.default))
  else
    processPresent optionName optionDefinition value contextStr verbose debug strictDefault
termination_by (defDepth optionDefinition, 8)
decreasing_by
  · exact Prod.Lex.right _ (by omega)

/-- The presence branch, source lines 210-424: type resolution, the
type-specific checks, the custom check, and the resolution step. -/
def processPresent (optionName : String) (optionDefinition : OptionDef) (value : Value)
    (contextStr : String) (verbose debug strictDefault : Bool) :
    Value × Except String (Option Value) :=
  match optionDefinition.base.type with
  | .undef =>
    -- source lines 212-215: no type given — `continue` without assigning
    (value, .ok none)
  | .str typeS =>
    if typeS = "" then
      (value, .error (_throwError
        (.plain ("Invalid type in definition for " ++ optionName
          ++ ", need a non-empty string, " ++ sPrettyPrint (.str typeS) ++ " given")) contextStr))
    else
      let norm := _normalizeTypeString typeS
      let d1 : OptionDef :=
        if norm = "NonEmptyString" then
          .mk (nesRewrite optionDefinition.base) optionDefinition.objectDefinition
              optionDefinition.elementDefinition
        else optionDefinition
      let definitionType := if norm = "NonEmptyString" then "string" else norm
      let tc := typeCheckPhase optionName d1 definitionType value contextStr verbose debug
      match tc.2 with
      | .error e => (tc.1, .error e)
      | .ok (checkFail, checkFailMessage, assignedVal) =>
        let cc := customCheckPhase optionName d1 value checkFail checkFailMessage
        (tc.1, (resolveOption optionName d1 value contextStr strictDefault cc.1 cc.2
                  assignedVal).map some)
  | t =>
    (value, .error (_throwError
      (.plain ("Invalid type in definition for " ++ optionName
        ++ ", need a non-empty string, " ++ sPrettyPrint t ++ " given")) contextStr))
termination_by (defDepth optionDefinition, 7)
decreasing_by
  · split
    · rw [defDepth_mk_base]
      exact Prod.Lex.right _ (by omega)
    · exact Prod.Lex.right _ (by omega)

/-- Source lines 237-390: the type-specific check switch (dispatch).
Yields the (possibly threaded) value together with `(checkFail,
checkFailMessage, assignedValue?)`, or a thrown error for an unrecognized
type token.  The `NonEmptyString` arm of the source switch (lines
266-271) is unreachable because the pre-processing step already turned
that type into `string`, and is therefore omitted. -/
def typeCheckPhase (optionName : String) (d1 : OptionDef) (definitionType : String)
    (value : Value) (contextStr : String) (verbose debug : Bool) :
    Value × Except String (Bool × JsMsg × Option Value) :=
  if definitionType = "function" ∨ definitionType = "boolean" then
    let c := checkBooleanFunction optionName d1.base definitionType value
    (value, .ok (c.1, c.2, none))
  else if definitionType = "number" then
    let c := checkNumber optionName d1.base value
    (value, .ok (c.1, c.2, none))
  else if definitionType = "NumberGreaterThanZero" then
    let c := checkNumberGreaterThanZero optionName value
    (value, .ok (c.1, c.2, none))
  else if definitionType = "NonZeroNumber" then
    let c := checkNonZeroNumber optionName value
    (value, .ok (c.1, c.2, none))
  else if definitionType = "string" then
    let c := checkString optionName d1.base value
    (value, .ok (c.1, c.2, none))
  else if definitionType = "object" then
    checkObject optionName d1.base d1.objectDefinition value contextStr verbose debug
  else if definitionType = "array" then
    checkArray optionName d1.base d1.elementDefinition value contextStr verbose debug
  else if definitionType = "custom" then
    (value, .ok (false, .plain "", none))
  else
    (value, .error (_throwError
      (.plain ("Unrecognized type '" ++ jsTemplate d1.base.type ++ "' in the definition of '"
        ++ optionName ++ "'")) contextStr))
termination_by (defDepth d1, 6)
decreasing_by
  · exact Prod.Lex.left _ _ (by
      cases d1 with
      | mk b od ed => simp only [OptionDef.objectDefinition, defDepth]; omega)
  · exact Prod.Lex.left _ _ (by
      cases d1 with
      | mk b od ed => simp only [OptionDef.elementDefinition, defDepth]; omega)

/-- Source lines 308-344: the `object` arm.  After the prechecks, a
nested `objectDefinition` spawns a sub-checker with context
`"<context> : <name>"` and strict-default `false`; its failure is caught
and becomes this option's pending failure message (the caught `Error`
object itself); its success assigns the nested clean result. -/
def checkObject (optionName : String) (b : DefBase) (objectDefinition : Option Schema)
    (value : Value) (contextStr : String) (verbose debug : Bool) :
    Value × Except String (Bool × JsMsg × Option Value) :=
  match objectPreFail optionName b value, objectDefinition, value with
  | some m, _, _ => (value, .ok (true, m, none))
  | none, none, _ => (value, .ok (false, .plain "", none))
  | none, some objDef, .obj tag fields =>
    let r := _getCleanOptions fields objDef (contextStr ++ " : " ++ optionName)
               verbose debug false
    (match r.2 with
     | .error e => (.obj tag r.1, .ok (true, .errObj e, none))
     | .ok cleanObject =>
       (.obj tag r.1, .ok (false, .plain "", some (.obj "Object" cleanObject))))
  | none, some objDef, v =>
    -- typeof 'object' but not a plain object: an array.  The nested
    -- checker reads the schema's option names off it; they are
    -- (non-index) property names, absent on an array value.
    let r := _getCleanOptions [] objDef (contextStr ++ " : " ++ optionName)
               verbose debug false
    (match r.2 with
     | .error e => (v, .ok (true, .errObj e, none))
     | .ok cleanObject => (v, .ok (false, .plain "", some (.obj "Object" cleanObject))))
termination_by (schemaOptDepth objectDefinition, 5)
decreasing_by
  · exact Prod.Lex.left _ _ (by simp only [schemaOptDepth]; omega)
  · exact Prod.Lex.left _ _ (by simp only [schemaOptDepth]; omega)

/-- Source lines 346-382: the `array` arm.  After the prechecks, an
`elementDefinition` maps every element through a one-field sub-schema;
an element failure is caught and becomes the pending message, otherwise
the mapped array is the assigned value — but only counts as assigned
when no earlier (`maxLength`) failure is pending, in which case the
resolution step will overwrite it with the default or fail. -/
def checkArray (optionName : String) (b : DefBase) (elementDefinition : Option OptionDef)
    (value : Value) (contextStr : String) (verbose debug : Bool) :
    Value × Except String (Bool × JsMsg × Option Value) :=
  match arrayPreFail optionName b value, elementDefinition, value with
  | (some m, _), _, _ => (value, .ok (true, m, none))
  | (none, maxRes), none, _ => (value, .ok (maxRes.1, maxRes.2, none))
  | (none, maxRes), some elemDef, .arr elems =>
    let pe := processElements elemDef elems contextStr optionName 0 verbose debug
    (match pe.2 with
     | .error e => (.arr pe.1, .ok (true, .errObj e, none))
     | .ok ws =>
       if maxRes.1 then (.arr pe.1, .ok (true, maxRes.2, none))
       else (.arr pe.1, .ok (false, .plain "", some (.arr ws))))
  | (none, maxRes), some elemDef, v => (v, .ok (maxRes.1, maxRes.2, none))
termination_by (defOptDepth elementDefinition, 5)
decreasing_by
  · exact Prod.Lex.left _ _ (by simp only [defOptDepth]; omega)

/-- Source lines 362-381: map every array element through the one-field
schema `{element: elementDefinition}` under the context
`"<context> : <name> : element <i>"`; the first element failure aborts
the map.  A skipped element (element definition without a type) yields
`undefined`, exactly as the source's `['element']` lookup does. -/
def processElements (elementDefinition : OptionDef) (elems : List Value)
    (contextStr optionName : String) (idx : Nat) (verbose debug : Bool) :
    List Value × Except String (List Value) :=
  match elems with
  | [] => ([], .ok [])
  | e :: es =>
    let pr := processOption "element" elementDefinition e
      (contextStr ++ " : " ++ optionName ++ " : element " ++ toString idx) verbose debug false
    match pr.2 with
    | .error err => (pr.1 :: es, .error err)
    | .ok entry =>
      let w := match entry with
        | some w => w
        | none => .undef
      let r := processElements elementDefinition es contextStr optionName (idx + 1) verbose debug
      match r.2 with
      | .error err => (pr.1 :: r.1, .error err)
      | .ok ws => (pr.1 :: r.1, .ok (w :: ws))
termination_by (defDepth elementDefinition, elems.length + 9)
decreasing_by
  · exact Prod.Lex.right _ (by omega)
  · exact Prod.Lex.right _ (by simp only [List.length_cons]; omega)
end

/-- The checker facade: the state an `OptionsChecker` instance holds
after its constructor ran (source lines 114-118). -/
structure OptionsChecker where
  optionsDefinition : Schema
  contextStr : String
  verbose : Bool
  debug : Bool
  strictDefault : Bool

/-- Source `setDebug` (lines 121-128): setting debug also forces verbose
on; clearing debug leaves verbose untouched. -/
def OptionsChecker.setDebug (oc : OptionsChecker) (debug : Bool) : OptionsChecker :=
  if debug then { oc with debug := true, verbose := true }
  else { oc with debug := false }

/-- Source `getCleanOptions` (lines 136-138): delegates to the engine
with the stored configuration.  First component: the raw options object
after the call; second: the clean object or the error. -/
def OptionsChecker.getCleanOptions (oc : OptionsChecker) (optionsObject : Obj) :
    Obj × Except String Obj :=
  _getCleanOptions optionsObject oc.optionsDefinition oc.contextStr oc.verbose oc.debug
    oc.strictDefault

/-- Source `getDefaults` (lines 140-142). -/
def OptionsChecker.getDefaults (oc : OptionsChecker) : Obj × Except String Obj :=
  oc.getCleanOptions []

/-- The fixed meta-schema the constructor uses to validate its own
configuration (source lines 105-111). -/
def checkerOptionsDefinition : Schema :=
  [ ("optionsDefinition", mkDef { type := .str "object", required := true }),
    ("context",           mkDef { type := .str "NonEmptyString", required := true }),
    ("strictDefault",     mkDef { type := .str "boolean", default := .bool false }),
    ("verbose",           mkDef { type := .str "boolean", default := .bool false }),
    ("debug",             mkDef { type := .str "boolean", default := .bool false }) ]

/-- The constructor's self-validation call (source line 112): the
configuration object is cleaned against `checkerOptionsDefinition` with
context `"<context> constructor"` and — crucially — the strict-default
flag hard-wired to `true`.  `contextArg` is the deprecated second
positional argument (`null` in the single-argument calling convention).
The result is the cleaned configuration from which the instance fields
are assigned. -/
def constructorCleanOptions (constructorOptionsObject : Obj) (contextArg : Option String) :
    Obj × Except String Obj :=
  _getCleanOptions constructorOptionsObject checkerOptionsDefinition
    ((match contextArg with | none => "OptionsChecker" | some c => c) ++ " constructor")
    false false true

/-- Writing back the value an object already holds at a present key is a
no-op. -/
theorem jsSet_get_self (o : Obj) (name : String) (h : jsHas o name = true) :
    jsSet o name (jsGet o name) = o := by
  induction o with
  | nil => simp [jsHas] at h
  | cons kv rest ih =>
    obtain ⟨k, v⟩ := kv
    by_cases hk : k = name
    · subst hk
      simp [jsSet, jsGet]
    · simp [jsHas, hk] at h
      simp [jsSet, jsGet, hk, ih h]

set_option maxHeartbeats 1000000

mutual
/-- The engine never writes to the raw options object: the threaded raw
object comes back unchanged from every call, on success and on error. -/
theorem _getCleanOptions_fst (optionsObject : Obj) (optionsDefinition : Schema)
    (contextStr : String) (verbose debug strictDefault : Bool) :
    (_getCleanOptions optionsObject optionsDefinition contextStr verbose debug strictDefault).1
      = optionsObject := by
  match optionsDefinition with
  | [] => rw [_getCleanOptions]
  | (optionName, optionDefinition) :: rest =>
    rw [_getCleanOptions]
    simp only [processOption_fst optionName optionDefinition (jsGet optionsObject optionName)
      contextStr verbose debug strictDefault]
    have hset : (if jsHas optionsObject optionName = true
        then jsSet optionsObject optionName (jsGet optionsObject optionName)
        else optionsObject) = optionsObject := by
      split
      · exact jsSet_get_self _ _ (by assumption)
      · rfl
    rw [hset]
    have hrec := _getCleanOptions_fst optionsObject rest contextStr verbose debug strictDefault
    repeat' split
    all_goals first | rfl | simp only [hrec]
termination_by (schemaDepth optionsDefinition, 0)
decreasing_by
  all_goals exact Prod.Lex.left _ _ (by simp only [schemaDepth]; omega)

/-- A processed option hands its value back unchanged. -/
theorem processOption_fst (optionName : String) (optionDefinition : OptionDef) (value : Value)
    (contextStr : String) (verbose debug strictDefault : Bool) :
    (processOption optionName optionDefinition value contextStr verbose debug strictDefault).1
      = value := by
  rw [processOption]
  repeat' split
  all_goals first
    | rfl
    | exact processPresent_fst _ _ _ _ _ _ _
termination_by (defDepth optionDefinition, 8)
decreasing_by
  all_goals exact Prod.Lex.right _ (by omega)

/-- The presence branch hands the value back unchanged. -/
theorem processPresent_fst (optionName : String) (optionDefinition : OptionDef) (value : Value)
    (contextStr : String) (verbose debug strictDefault : Bool) :
    (processPresent optionName optionDefinition value contextStr verbose debug strictDefault).1
      = value := by
  rw [processPresent]
  dsimp only []
  repeat' split
  all_goals first
    | rfl
    | exact typeCheckPhase_fst _ _ _ _ _ _ _
termination_by (defDepth optionDefinition, 7)
decreasing_by
  all_goals first
    | exact Prod.Lex.right _ (by omega)
    | (rw [defDepth_mk_base]; exact Prod.Lex.right _ (by omega))
    | (split
       · rw [defDepth_mk_base]
         exact Prod.Lex.right _ (by omega)
       · exact Prod.Lex.right _ (by omega))

/-- The type-check switch hands the value back unchanged. -/
theorem typeCheckPhase_fst (optionName : String) (d1 : OptionDef) (definitionType : String)
    (value : Value) (contextStr : String) (verbose debug : Bool) :
    (typeCheckPhase optionName d1 definitionType value contextStr verbose debug).1 = value := by
  rw [typeCheckPhase]
  repeat' split
  all_goals first
    | rfl
    | exact checkObject_fst _ _ _ _ _ _ _
    | exact checkArray_fst _ _ _ _ _ _ _
termination_by (defDepth d1, 6)
decreasing_by
  all_goals exact Prod.Lex.left _ _ (by
    cases d1 with
    | mk b od ed =>
      simp only [OptionDef.objectDefinition, OptionDef.elementDefinition, defDepth]
      omega)

/-- The object arm hands the value back unchanged: nested validation
reads the nested object's fields but never writes them. -/
theorem checkObject_fst (optionName : String) (b : DefBase) (objectDefinition : Option Schema)
    (value : Value) (contextStr : String) (verbose debug : Bool) :
    (checkObject optionName b objectDefinition value contextStr verbose debug).1 = value := by
  match objectDefinition with
  | none =>
    rw [checkObject.eq_def]
    repeat' split
    all_goals first | rfl | contradiction
  | some objDef =>
    rw [checkObject.eq_def]
    split
    · rfl
    · contradiction
    · rename_i objDef2 tag fields hsome hpre
      injection hsome with hob
      subst hob
      have hrec := _getCleanOptions_fst fields objDef (contextStr ++ " : " ++ optionName)
        verbose debug false
      dsimp only []
      split
      · rw [hrec]
      · rw [hrec]
    · dsimp only []
      split <;> rfl
termination_by (schemaOptDepth objectDefinition, 5)
decreasing_by
  all_goals exact Prod.Lex.left _ _ (by simp only [schemaOptDepth]; omega)

/-- The array arm hands the value back unchanged: element validation
reads the elements but never writes them. -/
theorem checkArray_fst (optionName : String) (b : DefBase) (elementDefinition : Option OptionDef)
    (value : Value) (contextStr : String) (verbose debug : Bool) :
    (checkArray optionName b elementDefinition value contextStr verbose debug).1 = value := by
  match elementDefinition with
  | none =>
    rw [checkArray.eq_def]
    repeat' split
    all_goals first | rfl | contradiction
  | some elemDef =>
    rw [checkArray.eq_def]
    split
    · rfl
    · contradiction
    · rename_i maxRes elemDef2 elems hsome hpre
      injection hsome with he
      subst he
      have hrec := processElements_fst elemDef elems contextStr optionName 0 verbose debug
      dsimp only []
      repeat' split
      all_goals first | rfl | rw [hrec]
    · rfl
termination_by (defOptDepth elementDefinition, 5)
decreasing_by
  all_goals exact Prod.Lex.left _ _ (by simp only [defOptDepth]; omega)

/-- Element-wise validation hands every element back unchanged. -/
theorem processElements_fst (elementDefinition : OptionDef) (elems : List Value)
    (contextStr optionName : String) (idx : Nat) (verbose debug : Bool) :
    (processElements elementDefinition elems contextStr optionName idx verbose debug).1 = elems := by
  match elems with
  | [] => rw [processElements]
  | e :: es =>
    rw [processElements]
    have hpr := processOption_fst "element" elementDefinition e
      (contextStr ++ " : " ++ optionName ++ " : element " ++ toString idx) verbose debug false
    have hrec := processElements_fst elementDefinition es contextStr optionName (idx + 1) verbose debug
    dsimp only []
    repeat' split
    all_goals first | rfl | simp only [hpr, hrec]
termination_by (defDepth elementDefinition, elems.length + 9)
decreasing_by
  all_goals first
    | exact Prod.Lex.right _ (by omega)
    | exact Prod.Lex.right _ (by simp only [List.length_cons]; omega)
end

/-- Which `Except` results are errors (thrown exceptions). -/
def Except.isError : Except ε α → Bool
  | .error _ => true
  | .ok _ => false

/-- Type-token normalization facts used when evaluating concrete
schemas. -/
theorem norm_string_eval : _normalizeTypeString "string" = "string" := by decide

theorem norm_number_eval : _normalizeTypeString "number" = "number" := by decide

theorem norm_object_eval : _normalizeTypeString "object" = "object" := by decide

theorem norm_boolean_eval : _normalizeTypeString "boolean" = "boolean" := by decide

theorem norm_nes_eval : _normalizeTypeString "NonEmptyString" = "NonEmptyString" := by decide

theorem norm_array_eval : _normalizeTypeString "Array" = "array" := by decide

/-- C1 (evidence for the code bug): an option whose definition has no
`type` but whose value IS supplied in the raw object is skipped by the
`continue` at source line 214 without ever being assigned, so the clean
result lacks the entry entirely — for a plain defaulted option and even
for a `required` one — contradicting both the documented contract that
the clean object has one entry per declared option and the behavior of
the legacy `OptionsChecker.js` variant, which copies the value through. -/
theorem c1_untyped_supplied_value_dropped :
    (_getCleanOptions [("option1", .num 3)]
        [("option1", mkDef { default := .num 5 })] "ctx" false false false).2 = .ok []
  ∧ (_getCleanOptions [("option1", .str "x")]
        [("option1", mkDef { required := true })] "ctx" false false false).2 = .ok [] := by
  constructor
  · simp [_getCleanOptions, processOption, processPresent, jsGet, jsHas, jsSet, mkDef,
      Value.isUndef, OptionDef.base]
  · simp [_getCleanOptions, processOption, processPresent, jsGet, jsHas, jsSet, mkDef,
      Value.isUndef, OptionDef.base]

/-- C2 (counterexample): for a `required` option with a `default`, a
supplied value that fails its check makes `_getCleanOptions` assign the
default (strict-default off) — the default is *not* ignored for required
options, contrary to the claim. -/
theorem c2_counterexample :
    (_getCleanOptions [("option1", .bool true)]
        [("option1", .mk { required := true, type := .str "number", default := .num 5 } none none)]
        "ctx" false false false).2 = .ok [("option1", .num 5)] := by
  simp [_getCleanOptions, processOption, processPresent, typeCheckPhase, checkObject, checkArray,
    processElements, customCheckPhase, resolveOption, effectiveStrictDefault, checkBooleanFunction,
    checkNumber, checkNumberGreaterThanZero, checkNonZeroNumber, checkString, objectPreFail,
    arrayPreFail, jsGet, jsHas, jsSet, mkDef, Value.isUndef, OptionDef.base,
    OptionDef.objectDefinition, OptionDef.elementDefinition, typeOf, truthy, jsTemplate,
    sPrettyPrint, constructorName, instanceOf, JsMsg.render, _throwError, nesRewrite,
    norm_number_eval, Except.map]

/-- C2 (amended): the default of a `required=true` option is ignored
only in the absence branch — an absent required option raises
`Required option '<name>' not found` before the default is ever
consulted; but when a supplied value fails a check and the effective
strict-default is off and a default is defined, the resolution step
assigns the default even for required options. -/
theorem c2_amended (optionName : String) (d : OptionDef) (contextStr : String)
    (verbose debug strictDefault : Bool)
    (hreq : d.base.required = true) :
    processOption optionName d .undef contextStr verbose debug strictDefault
      = (.undef, .error (contextStr ++ " : "
          ++ ("Required option '" ++ optionName ++ "' not found")))
  ∧ ∀ (value : Value) (checkFailMessage : JsMsg) (assignedVal : Option Value),
      effectiveStrictDefault d strictDefault = false →
      d.base.default.isUndef = false →
      resolveOption optionName d value contextStr strictDefault true checkFailMessage assignedVal
        = .ok d.base.default := by
  constructor
  · rw [processOption]
    simp [Value.isUndef, hreq, _throwError, JsMsg.render]
  · intro value checkFailMessage assignedVal hstrict hdef
    simp only [resolveOption]
    simp [hstrict, hdef]

/-- C2 (witness): the amended statement applied to the concrete required
number option with default 5. -/
theorem c2_amended_witness :
    processOption "option1"
        (.mk { required := true, type := .str "number", default := .num 5 } none none)
        .undef ("ctx") false false false
      = (.undef, .error "ctx : Required option 'option1' not found")
  ∧ resolveOption "option1"
        (.mk { required := true, type := .str "number", default := .num 5 } none none)
        (.bool true) "ctx" false true (.plain "m") none = .ok (.num 5) :=
  ⟨(c2_amended "option1"
      (.mk { required := true, type := .str "number", default := .num 5 } none none)
      "ctx" false false false rfl).1,
   (c2_amended "option1"
      (.mk { required := true, type := .str "number", default := .num 5 } none none)
      "ctx" false false false rfl).2 (.bool true) (.plain "m") none rfl rfl⟩

/-- Unfolding of the presence branch for an option whose `type` is a
non-empty string token that does not normalize to `NonEmptyString`: the
definition is used unrewritten and the check/custom/resolution pipeline
runs on the normalized token. -/
theorem processPresent_typed_eq (optionName : String) (d : OptionDef) (value : Value)
    (contextStr : String) (verbose debug strictDefault : Bool) (ts : String)
    (hty : d.base.type = .str ts) (hts : ts ≠ "")
    (hnes : _normalizeTypeString ts ≠ "NonEmptyString") :
    processPresent optionName d value contextStr verbose debug strictDefault
      = (let tc := typeCheckPhase optionName d (_normalizeTypeString ts) value contextStr
           verbose debug
         match tc.2 with
         | .error e => (tc.1, .error e)
         | .ok (checkFail, checkFailMessage, assignedVal) =>
           let cc := customCheckPhase optionName d value checkFail checkFailMessage
           (tc.1, (resolveOption optionName d value contextStr strictDefault cc.1 cc.2
                     assignedVal).map some)) := by
  rw [processPresent]
  rw [hty]
  simp [hts, hnes]

/-- The custom check never runs once the built-in checks have failed
(source line 393 guards on `!checkFail`). -/
theorem customCheckPhase_fail_passthrough (optionName : String) (d1 : OptionDef) (value : Value)
    (msg : JsMsg) :
    customCheckPhase optionName d1 value true msg = (true, msg) := by
  simp [customCheckPhase]

/-- Resolution after a failed check raises exactly when the effective
strict-default is on or no default is defined, with the accumulated
message rendered under the context prefix. -/
theorem resolveOption_checkFail_error (optionName : String) (d1 : OptionDef) (value : Value)
    (contextStr : String) (strictDefault : Bool) (msg : JsMsg) (assignedVal : Option Value)
    (h : effectiveStrictDefault d1 strictDefault = true ∨ d1.base.default.isUndef = true) :
    resolveOption optionName d1 value contextStr strictDefault true msg assignedVal
      = .error (contextStr ++ " : " ++ msg.render) := by
  simp only [resolveOption]
  rcases h with h | h <;> simp [h, _throwError]

/-- Resolution after a failed check assigns the default when the
effective strict-default is off and a default exists. -/
theorem resolveOption_checkFail_default (optionName : String) (d1 : OptionDef) (value : Value)
    (contextStr : String) (strictDefault : Bool) (msg : JsMsg) (assignedVal : Option Value)
    (h1 : effectiveStrictDefault d1 strictDefault = false)
    (h2 : d1.base.default.isUndef = false) :
    resolveOption optionName d1 value contextStr strictDefault true msg assignedVal
      = .ok d1.base.default := by
  simp only [resolveOption]
  simp [h1, h2]

/-- The `object` arm of the type-check dispatch. -/
theorem typeCheckPhase_object_eq (optionName : String) (d1 : OptionDef) (value : Value)
    (contextStr : String) (verbose debug : Bool) :
    typeCheckPhase optionName d1 "object" value contextStr verbose debug
      = checkObject optionName d1.base d1.objectDefinition value contextStr verbose debug := by
  rw [typeCheckPhase]
  simp

/-- The `array` arm of the type-check dispatch. -/
theorem typeCheckPhase_array_eq (optionName : String) (d1 : OptionDef) (value : Value)
    (contextStr : String) (verbose debug : Bool) :
    typeCheckPhase optionName d1 "array" value contextStr verbose debug
      = checkArray optionName d1.base d1.elementDefinition value contextStr verbose debug := by
  rw [typeCheckPhase]
  simp

/-- The `boolean` arm of the type-check dispatch. -/
theorem typeCheckPhase_boolean_eq (optionName : String) (d1 : OptionDef) (value : Value)
    (contextStr : String) (verbose debug : Bool) :
    typeCheckPhase optionName d1 "boolean" value contextStr verbose debug
      = (value, .ok ((checkBooleanFunction optionName d1.base "boolean" value).1,
          (checkBooleanFunction optionName d1.base "boolean" value).2, none)) := by
  rw [typeCheckPhase]
  simp

/-- The `number` arm of the type-check dispatch. -/
theorem typeCheckPhase_number_eq (optionName : String) (d1 : OptionDef) (value : Value)
    (contextStr : String) (verbose debug : Bool) :
    typeCheckPhase optionName d1 "number" value contextStr verbose debug
      = (value, .ok ((checkNumber optionName d1.base value).1,
          (checkNumber optionName d1.base value).2, none)) := by
  rw [typeCheckPhase]
  simp

/-- The `string` arm of the type-check dispatch. -/
theorem typeCheckPhase_string_eq (optionName : String) (d1 : OptionDef) (value : Value)
    (contextStr : String) (verbose debug : Bool) :
    typeCheckPhase optionName d1 "string" value contextStr verbose debug
      = (value, .ok ((checkString optionName d1.base value).1,
          (checkString optionName d1.base value).2, none)) := by
  rw [typeCheckPhase]
  simp

/-- The object arm when the value is a plain object, the class check is
off, and the nested validation fails: the caught error becomes the
pending failure message (as a caught `Error` object) and nothing is
assigned. -/
theorem checkObject_nested_error (optionName : String) (b : DefBase) (od : Schema)
    (tag : String) (fields : Obj) (contextStr : String) (verbose debug : Bool) (e : String)
    (hclass : b.objectClass = none)
    (hnested : (_getCleanOptions fields od (contextStr ++ " : " ++ optionName)
        verbose debug false).2 = .error e) :
    (checkObject optionName b (some od) (.obj tag fields) contextStr verbose debug).2
      = .ok (true, .errObj e, none) := by
  have hpre : objectPreFail optionName b (.obj tag fields) = none := by
    simp [objectPreFail, typeOf, hclass]
  rw [checkObject.eq_def]
  simp only [hpre]
  simp only [hnested]

/-- The object arm when the value is a plain object, the class check is
off, and the nested validation succeeds: the nested clean result, as a
fresh plain object, is the assigned value. -/
theorem checkObject_nested_ok (optionName : String) (b : DefBase) (od : Schema)
    (tag : String) (fields : Obj) (contextStr : String) (verbose debug : Bool)
    (cleanObject : Obj)
    (hclass : b.objectClass = none)
    (hnested : (_getCleanOptions fields od (contextStr ++ " : " ++ optionName)
        verbose debug false).2 = .ok cleanObject) :
    (checkObject optionName b (some od) (.obj tag fields) contextStr verbose debug).2
      = .ok (false, .plain "", some (.obj "Object" cleanObject)) := by
  have hpre : objectPreFail optionName b (.obj tag fields) = none := by
    simp [objectPreFail, typeOf, hclass]
  rw [checkObject.eq_def]
  simp only [hpre]
  simp only [hnested]

/-- C3 (counterexample): a nested validation failure is not propagated
verbatim.  The inner checker throws
`ctx : user : Required option 'name' not found`; the enclosing option
catches the `Error` object and re-throws it through `_throwError`, which
prepends the outer context again and stringifies the caught object with
an `Error:` marker.  The raised string therefore carries the outer
context twice, not once as the claim states. -/
theorem c3_counterexample :
    (_getCleanOptions [("user", .obj "Object" [])]
        [("user", .mk { type := .str "object" }
            (some [("name", mkDef { type := .str "string", required := true })]) none)]
        "ctx" false false false).2
      = .error "ctx : Error: ctx : user : Required option 'name' not found"
  ∧ "ctx : Error: ctx : user : Required option 'name' not found"
      ≠ "ctx : user : Required option 'name' not found" := by
  constructor
  · simp [_getCleanOptions, processOption, processPresent, typeCheckPhase, checkObject,
      checkArray, processElements, customCheckPhase, resolveOption, effectiveStrictDefault,
      checkBooleanFunction, checkNumber, checkNumberGreaterThanZero, checkNonZeroNumber,
      checkString, objectPreFail, arrayPreFail, jsGet, jsHas, jsSet, mkDef, Value.isUndef,
      OptionDef.base, OptionDef.objectDefinition, OptionDef.elementDefinition, typeOf, truthy,
      jsTemplate, sPrettyPrint, constructorName, instanceOf, JsMsg.render, _throwError,
      nesRewrite, norm_object_eval, norm_string_eval, Except.map]
  · decide

/-- C3 (amended): when a nested `objectDefinition` validation fails with
error string `e` (which the inner checker already prefixed with
`"<outer context> : <option name>"`), and the failure cannot fall back
to a default, the enclosing `processOption` raises
`"<outer context> : Error: " ++ e` — the outer context is prepended a
second time around the JavaScript stringification of the caught `Error`
object, rather than propagating `e` verbatim. -/
theorem c3_amended (optionName : String) (b : DefBase) (od : Schema) (tag : String)
    (fields : Obj) (contextStr : String) (verbose debug strictDefault : Bool) (e : String)
    (htype : b.type = .str "object")
    (hclass : b.objectClass = none)
    (hnested : (_getCleanOptions fields od (contextStr ++ " : " ++ optionName)
        verbose debug false).2 = .error e)
    (hstrict : effectiveStrictDefault (.mk b (some od) none) strictDefault = true
        ∨ b.default.isUndef = true) :
    (processOption optionName (.mk b (some od) none) (.obj tag fields) contextStr
        verbose debug strictDefault).2
      = .error (contextStr ++ " : " ++ ("Error: " ++ e)) := by
  rw [processOption]
  simp only [Value.isUndef, Bool.false_eq_true, if_false]
  rw [processPresent_typed_eq optionName (.mk b (some od) none) (.obj tag fields) contextStr
    verbose debug strictDefault "object" (by simpa [OptionDef.base] using htype)
    (by decide) (by decide)]
  rw [norm_object_eval]
  rw [typeCheckPhase_object_eq]
  have hco := checkObject_nested_error optionName b od tag fields contextStr verbose debug e
    hclass hnested
  simp only [OptionDef.base, OptionDef.objectDefinition] at *
  -- reduce the match on the checkObject outcome
  rcases hck : checkObject optionName b (some od) (.obj tag fields) contextStr verbose debug
    with ⟨v1, r1⟩
  rw [hck] at hco
  simp only at hco
  subst hco
  simp only []
  rw [customCheckPhase_fail_passthrough]
  rw [resolveOption_checkFail_error _ _ _ _ _ _ _ hstrict]
  simp [JsMsg.render, Except.map]

/-- C3 (witness): the amended statement applied to the concrete nested
schema requiring `name`, with the empty nested object. -/
theorem c3_amended_witness :
    (processOption "user"
        (.mk { type := .str "object" }
            (some [("name", mkDef { type := .str "string", required := true })]) none)
        (.obj "Object" []) "ctx" false false false).2
      = .error "ctx : Error: ctx : user : Required option 'name' not found" :=
  c3_amended "user" { type := .str "object" }
    [("name", mkDef { type := .str "string", required := true })] "Object" []
    "ctx" false false false "ctx : user : Required option 'name' not found"
    rfl rfl
    (by simp [_getCleanOptions, processOption, processPresent, jsGet, jsHas, jsSet, mkDef,
      Value.isUndef, OptionDef.base, _throwError, JsMsg.render])
    (Or.inr rfl)

/-- C4: for an option whose supplied value fails a check (the type-check
phase and custom check leave `checkFail` true with message `msg`),
`processOption` raises exactly when the effective strict-default — the
option's own `strictDefault` when defined, else the schema-wide flag —
is on, or no `default` is defined; otherwise it assigns the default. -/
theorem c4_strict_default_policy (optionName : String) (d : OptionDef) (value : Value)
    (contextStr : String) (verbose debug strictDefault : Bool) (ts : String)
    (cf0 : Bool) (msg0 msg : JsMsg) (assignedVal : Option Value)
    (hpresent : value.isUndef = false)
    (htype : d.base.type = .str ts) (hts : ts ≠ "")
    (hnes : _normalizeTypeString ts ≠ "NonEmptyString")
    (htc : (typeCheckPhase optionName d (_normalizeTypeString ts) value contextStr
        verbose debug).2 = .ok (cf0, msg0, assignedVal))
    (hcc : customCheckPhase optionName d value cf0 msg0 = (true, msg)) :
    (((processOption optionName d value contextStr verbose debug strictDefault).2.isError = true)
       ↔ (effectiveStrictDefault d strictDefault = true ∨ d.base.default.isUndef = true))
  ∧ (effectiveStrictDefault d strictDefault = false → d.base.default.isUndef = false →
      (processOption optionName d value contextStr verbose debug strictDefault).2
        = .ok (some d.base.default)) := by
  have hbody : (processOption optionName d value contextStr verbose debug strictDefault).2
      = (resolveOption optionName d value contextStr strictDefault true msg assignedVal).map
          some := by
    rw [processOption]
    simp only [hpresent, Bool.false_eq_true, if_false]
    rw [processPresent_typed_eq optionName d value contextStr verbose debug strictDefault ts
      htype hts hnes]
    rcases h1 : typeCheckPhase optionName d (_normalizeTypeString ts) value contextStr
      verbose debug with ⟨v1, r1⟩
    rw [h1] at htc
    simp only at htc
    subst htc
    simp only []
    rw [hcc]
  constructor
  · rw [hbody]
    rcases heff : effectiveStrictDefault d strictDefault with _ | _
    · rcases hdef : d.base.default.isUndef with _ | _
      · rw [resolveOption_checkFail_default optionName d value contextStr strictDefault msg
          assignedVal heff hdef]
        simp [Except.map, Except.isError]
      · rw [resolveOption_checkFail_error optionName d value contextStr strictDefault msg
          assignedVal (Or.inr hdef)]
        simp [Except.map, Except.isError]
    · rw [resolveOption_checkFail_error optionName d value contextStr strictDefault msg
        assignedVal (Or.inl heff)]
      simp [Except.map, Except.isError]
  · intro heff hdef
    rw [hbody]
    rw [resolveOption_checkFail_default optionName d value contextStr strictDefault msg
      assignedVal heff hdef]
    simp [Except.map]

/-- C4 (witness): the strict-default scenario — schema
`{option1: {type: 'number', min: 0, max: 20, default: 1}}` under the
schema-wide strict-default flag — raises on input `{option1: -1}` rather
than falling back to the default 1: the policy theorem applied at that
input, plus the full engine run producing the bound-violation error. -/
theorem c4_strict_default_policy_witness :
    ((processOption "option1"
        (mkDef { type := .str "number", min := some 0, max := some 20, default := .num 1 })
        (.num (-1)) "Strict Default Test" false false true).2.isError = true)
  ∧ (_getCleanOptions [("option1", .num (-1))]
        [("option1",
          mkDef { type := .str "number", min := some 0, max := some 20, default := .num 1 })]
        "Strict Default Test" false false true).2
      = .error "Strict Default Test : Number 'option1' should be equal to or greater than 0, -1 given" := by
  constructor
  · exact (c4_strict_default_policy "option1"
      (mkDef { type := .str "number", min := some 0, max := some 20, default := .num 1 })
      (.num (-1)) "Strict Default Test" false false true "number" true
      (.plain "Number 'option1' should be equal to or greater than 0, -1 given")
      (.plain "Number 'option1' should be equal to or greater than 0, -1 given") none
      rfl rfl (by decide) (by decide)
      (by rw [norm_number_eval, typeCheckPhase_number_eq]
          simp [checkNumber, mkDef, OptionDef.base] <;> rfl)
      (by simp [customCheckPhase, mkDef, OptionDef.base])).1.mpr (Or.inl rfl)
  · simp [_getCleanOptions, processOption, processPresent, typeCheckPhase, checkObject,
      checkArray, processElements, customCheckPhase, resolveOption, effectiveStrictDefault,
      checkBooleanFunction, checkNumber, checkNumberGreaterThanZero, checkNonZeroNumber,
      checkString, objectPreFail, arrayPreFail, jsGet, jsHas, jsSet, mkDef, Value.isUndef,
      OptionDef.base, OptionDef.objectDefinition, OptionDef.elementDefinition, typeOf, truthy,
      jsTemplate, sPrettyPrint, constructorName, instanceOf, JsMsg.render, _throwError,
      nesRewrite, norm_number_eval, Except.map] <;> rfl

/-- C5: the transform function runs only on accepted, non-default
values.  (1) An absent option takes its default verbatim — the transform
is never applied to it, whatever `transformFunction` is.  (2) A value
that failed its check and falls back to the default also takes the
default verbatim, bypassing the transform.  (3) Only on the success path
is the transform applied to the assigned value (the nested/array-mapped
value when one was assigned, else the raw value); a transform returning
the undefined sentinel raises
`Transform function returned undefined value for option <name>`. -/
theorem c5_transform_only_on_accepted (optionName : String) (d : OptionDef) (value : Value)
    (contextStr : String) (verbose debug strictDefault : Bool) (msg : JsMsg)
    (assignedVal : Option Value) (f : Value → Value) :
    (d.base.required = false → d.base.default.isUndef = false →
      processOption optionName d .undef contextStr verbose debug strictDefault
        = (.undef, .ok (some d.base.default)))
  ∧ (effectiveStrictDefault d strictDefault = false → d.base.default.isUndef = false →
      resolveOption optionName d value contextStr strictDefault true msg assignedVal
        = .ok d.base.default)
  ∧ (d.base.transformFunction = some f →
      (((f (match assignedVal with | some u => u | none => value)).isUndef = true →
        resolveOption optionName d value contextStr strictDefault false msg assignedVal
          = .error (contextStr ++ " : "
              ++ ("Transform function returned undefined value for option " ++ optionName)))
      ∧ ((f (match assignedVal with | some u => u | none => value)).isUndef = false →
        resolveOption optionName d value contextStr strictDefault false msg assignedVal
          = .ok (f (match assignedVal with | some u => u | none => value))))) := by
  refine ⟨?_, ?_, ?_⟩
  · intro hreq hdef
    rw [processOption]
    simp only [show (Value.undef).isUndef = true from rfl, if_true, hreq,
      Bool.false_eq_true, if_false, hdef]
  · intro heff hdef
    exact resolveOption_checkFail_default optionName d value contextStr strictDefault msg
      assignedVal heff hdef
  · intro htf
    constructor
    · intro hundef
      simp only [resolveOption]
      simp [htf, _throwError, JsMsg.render]
      rcases assignedVal with _ | u
      · simp at hundef
        simp [hundef]
      · simp at hundef
        simp [hundef]
    · intro hok
      simp only [resolveOption]
      simp [htf]
      rcases assignedVal with _ | u
      · simp at hok
        simp [hok]
      · simp at hok
        simp [hok]

/-- The `toLowerCase` string transform of the spec's transform
scenario. -/
def jsLowerTransform : Value → Value
  | .str s => .str (jsToLowerCase s)
  | v => v

/-- The option definition of the spec's transform scenario:
`{type: 'string', transformFunction: s => s.toLowerCase(), default: 'd'}`. -/
def transformScenarioDef : OptionDef :=
  mkDef { type := .str "string", transformFunction := some jsLowerTransform, default := .str "d" }

/-- C5 (witness): the transform scenario — input `{option1: 'Hello'}`
yields `{option1: 'hello'}` while input `{}` yields the default `'d'`
untransformed; the bypass conjunct is the theorem applied at the
concrete definition. -/
theorem c5_transform_only_on_accepted_witness :
    (_getCleanOptions [("option1", .str "Hello")] [("option1", transformScenarioDef)]
        "Transform Function Test" false false false).2
      = .ok [("option1", .str "hello")]
  ∧ processOption "option1" transformScenarioDef .undef ("Transform Function Test") false false false
      = (.undef, .ok (some (.str "d"))) := by
  constructor
  · simp [transformScenarioDef, jsLowerTransform, _getCleanOptions, processOption,
      processPresent, typeCheckPhase, checkObject,
      checkArray, processElements, customCheckPhase, resolveOption, effectiveStrictDefault,
      checkBooleanFunction, checkNumber, checkNumberGreaterThanZero, checkNonZeroNumber,
      checkString, objectPreFail, arrayPreFail, jsGet, jsHas, jsSet, mkDef, Value.isUndef,
      OptionDef.base, OptionDef.objectDefinition, OptionDef.elementDefinition, typeOf, truthy,
      jsTemplate, sPrettyPrint, constructorName, instanceOf, JsMsg.render, _throwError,
      nesRewrite, norm_string_eval, Except.map, jsToLowerCase, jsCharToLower] <;> rfl
  · exact (c5_transform_only_on_accepted "option1" transformScenarioDef
      .undef ("Transform Function Test") false false false (.plain "") none jsLowerTransform).1
      rfl rfl

/-- C6: the absence branch.  For a declared option whose raw value is
the undefined sentinel (missing key or explicit `undefined`): a
`required` option raises `Required option '<name>' not found`; a
non-required option without a default raises
`No default defined for option '<name>'`; otherwise the default is
assigned verbatim — whatever the clean run returns for the remaining
options, the entry for this option is exactly the default, untouched by
any type check or transform. -/
theorem c6_absence_branch (optionName : String) (d : OptionDef) (rest : Schema) (raw : Obj)
    (contextStr : String) (verbose debug strictDefault : Bool)
    (habs : jsGet raw optionName = .undef) :
    (d.base.required = true →
      (_getCleanOptions raw ((optionName, d) :: rest) contextStr verbose debug strictDefault).2
        = .error (contextStr ++ " : " ++ ("Required option '" ++ optionName ++ "' not found")))
  ∧ (d.base.required = false → d.base.default.isUndef = true →
      (_getCleanOptions raw ((optionName, d) :: rest) contextStr verbose debug strictDefault).2
        = .error (contextStr ++ " : "
            ++ ("No default defined for option '" ++ optionName ++ "'")))
  ∧ (d.base.required = false → d.base.default.isUndef = false →
      ∀ res, (_getCleanOptions raw ((optionName, d) :: rest) contextStr verbose debug
          strictDefault).2 = .ok res →
        jsGet res optionName = d.base.default) := by
  have hstep : processOption optionName d (jsGet raw optionName) contextStr verbose debug
      strictDefault
      = processOption optionName d .undef contextStr verbose debug strictDefault := by
    rw [habs]
  refine ⟨?_, ?_, ?_⟩
  · intro hreq
    rw [_getCleanOptions]
    rw [hstep]
    rw [processOption]
    simp [Value.isUndef, hreq, _throwError, JsMsg.render]
  · intro hreq hdef
    rw [_getCleanOptions]
    rw [hstep]
    rw [processOption]
    simp only [show (Value.undef).isUndef = true from rfl, if_true, hreq, Bool.false_eq_true,
      if_false, hdef]
    simp [_throwError, JsMsg.render]
  · intro hreq hdef res hok
    rw [_getCleanOptions] at hok
    rw [hstep] at hok
    rw [processOption] at hok
    simp only [show (Value.undef).isUndef = true from rfl, if_true, hreq, Bool.false_eq_true,
      if_false, hdef] at hok
    rcases hrest : (_getCleanOptions (if jsHas raw optionName = true
        then jsSet raw optionName .undef else raw) rest contextStr verbose debug
        strictDefault).2 with e | restClean
    · rw [hrest] at hok
      simp at hok
    · rw [hrest] at hok
      simp only [] at hok
      injection hok with hok
      subst hok
      simp [jsGet]

/-- C6 (witness): the three absence outcomes at concrete definitions —
a required option, an option with neither `required` nor `default`, and
a defaulted option (whose default comes through verbatim even though a
transform is defined). -/
theorem c6_absence_branch_witness :
    (_getCleanOptions [] [("option1", mkDef { required := true })] "RQ" false false false).2
      = .error "RQ : Required option 'option1' not found"
  ∧ (_getCleanOptions [] [("option1", mkDef {})] "ND" false false false).2
      = .error "ND : No default defined for option 'option1'"
  ∧ ∀ res, (_getCleanOptions [] [("option1", transformScenarioDef)] "TD" false false false).2
      = .ok res → jsGet res "option1" = .str "d" := by
  refine ⟨?_, ?_, ?_⟩
  · exact (c6_absence_branch "option1" (mkDef { required := true }) [] [] "RQ"
      false false false rfl).1 rfl
  · exact (c6_absence_branch "option1" (mkDef {}) [] [] "ND" false false false rfl).2.1 rfl rfl
  · exact (c6_absence_branch "option1" transformScenarioDef [] [] "TD" false false false
      rfl).2.2 rfl rfl

/-- The custom-check phase is a no-op when the checks passed and no
custom check is defined. -/
theorem customCheckPhase_none (optionName : String) (d1 : OptionDef) (value : Value)
    (msg : JsMsg) (h : d1.base.customCheck = none) :
    customCheckPhase optionName d1 value false msg = (false, msg) := by
  simp [customCheckPhase, h]

/-- Resolution on the success path with no transform keeps the assigned
value. -/
theorem resolveOption_success_no_transform (optionName : String) (d1 : OptionDef) (value : Value)
    (contextStr : String) (strictDefault : Bool) (msg : JsMsg) (w : Value)
    (h : d1.base.transformFunction = none) :
    resolveOption optionName d1 value contextStr strictDefault false msg (some w) = .ok w := by
  simp [resolveOption, h]

/-- C7: for an object-typed option with an `objectDefinition` and no
class constraint, custom check or transform, a successful nested
validation assigns the nested clean result — a fresh plain object with
the nested defaults filled in — rather than the raw value. -/
theorem c7_nested_object_assigns_clean (optionName : String) (b : DefBase) (od : Schema)
    (ed : Option OptionDef) (tag : String) (fields : Obj) (contextStr : String)
    (verbose debug strictDefault : Bool) (cleanObject : Obj)
    (htype : b.type = .str "object")
    (hclass : b.objectClass = none)
    (hcustom : b.customCheck = none)
    (htransform : b.transformFunction = none)
    (hnested : (_getCleanOptions fields od (contextStr ++ " : " ++ optionName)
        verbose debug false).2 = .ok cleanObject) :
    (processOption optionName (.mk b (some od) ed) (.obj tag fields) contextStr
        verbose debug strictDefault).2
      = .ok (some (.obj "Object" cleanObject)) := by
  rw [processOption]
  simp only [Value.isUndef, Bool.false_eq_true, if_false]
  rw [processPresent_typed_eq optionName (.mk b (some od) ed) (.obj tag fields) contextStr
    verbose debug strictDefault "object" (by simpa [OptionDef.base] using htype)
    (by decide) (by decide)]
  rw [norm_object_eval]
  rw [typeCheckPhase_object_eq]
  have hco := checkObject_nested_ok optionName b od tag fields contextStr verbose debug
    cleanObject hclass hnested
  simp only [OptionDef.base, OptionDef.objectDefinition] at *
  rcases hck : checkObject optionName b (some od) (.obj tag fields) contextStr verbose debug
    with ⟨v1, r1⟩
  rw [hck] at hco
  simp only at hco
  subst hco
  simp only []
  rw [customCheckPhase_none _ _ _ _ (by simpa [OptionDef.base] using hcustom)]
  rw [resolveOption_success_no_transform _ _ _ _ _ _ _
    (by simpa [OptionDef.base] using htransform)]
  simp [Except.map]

/-- C7 (witness): the nested-object scenario — schema
`{user: {type: 'object', objectDefinition: {name: required string,
age: required number, address: string default 'N/A'}}}` on input
`{user: {name: 'Rafael', age: 50}}` yields
`{user: {name: 'Rafael', age: 50, address: 'N/A'}}`; the per-option
conjunct is the assignment theorem applied to the nested run. -/
theorem c7_nested_object_assigns_clean_witness :
    (_getCleanOptions [("user", .obj "Object" [("name", .str "Rafael"), ("age", .num 50)])]
        [("user", .mk { type := .str "object" }
            (some [("name", mkDef { type := .str "string", required := true }),
                   ("age", mkDef { type := .str "number", required := true }),
                   ("address", mkDef { type := .str "string", default := .str "N/A" })])
            none)]
        "Object Definition Test" false false false).2
      = .ok [("user", .obj "Object"
          [("name", .str "Rafael"), ("age", .num 50), ("address", .str "N/A")])]
  ∧ (processOption "user"
        (.mk { type := .str "object" }
            (some [("name", mkDef { type := .str "string", required := true }),
                   ("age", mkDef { type := .str "number", required := true }),
                   ("address", mkDef { type := .str "string", default := .str "N/A" })])
            none)
        (.obj "Object" [("name", .str "Rafael"), ("age", .num 50)])
        "Object Definition Test" false false false).2
      = .ok (some (.obj "Object"
          [("name", .str "Rafael"), ("age", .num 50), ("address", .str "N/A")])) := by
  constructor
  · simp [_getCleanOptions, processOption, processPresent, typeCheckPhase, checkObject,
      checkArray, processElements, customCheckPhase, resolveOption, effectiveStrictDefault,
      checkBooleanFunction, checkNumber, checkNumberGreaterThanZero, checkNonZeroNumber,
      checkString, objectPreFail, arrayPreFail, jsGet, jsHas, jsSet, mkDef, Value.isUndef,
      OptionDef.base, OptionDef.objectDefinition, OptionDef.elementDefinition, typeOf, truthy,
      jsTemplate, sPrettyPrint, constructorName, instanceOf, JsMsg.render, _throwError,
      nesRewrite, norm_object_eval, norm_string_eval, norm_number_eval, Except.map]
  · exact c7_nested_object_assigns_clean "user" { type := .str "object" }
      [("name", mkDef { type := .str "string", required := true }),
       ("age", mkDef { type := .str "number", required := true }),
       ("address", mkDef { type := .str "string", default := .str "N/A" })]
      none "Object" [("name", .str "Rafael"), ("age", .num 50)]
      "Object Definition Test" false false false
      [("name", .str "Rafael"), ("age", .num 50), ("address", .str "N/A")]
      rfl rfl rfl rfl
      (by simp [_getCleanOptions, processOption, processPresent, typeCheckPhase, checkObject,
        checkArray, processElements, customCheckPhase, resolveOption, effectiveStrictDefault,
        checkBooleanFunction, checkNumber, checkNumberGreaterThanZero, checkNonZeroNumber,
        checkString, objectPreFail, arrayPreFail, jsGet, jsHas, jsSet, mkDef, Value.isUndef,
        OptionDef.base, OptionDef.objectDefinition, OptionDef.elementDefinition, typeOf, truthy,
        jsTemplate, sPrettyPrint, constructorName, instanceOf, JsMsg.render, _throwError,
        nesRewrite, norm_string_eval, norm_number_eval, Except.map])

/-- C9: the raw options object is never mutated — for every schema
(hooks are pure functions in this embedding, so they cannot mutate) and
every raw input, the raw object threaded through the engine comes back
exactly as it went in, whether the run succeeds or raises; likewise
through the `getCleanOptions` facade. -/
theorem c9_raw_object_never_mutated (optionsObject : Obj) (optionsDefinition : Schema)
    (contextStr : String) (verbose debug strictDefault : Bool) (oc : OptionsChecker) :
    (_getCleanOptions optionsObject optionsDefinition contextStr verbose debug
        strictDefault).1 = optionsObject
  ∧ (oc.getCleanOptions optionsObject).1 = optionsObject :=
  ⟨_getCleanOptions_fst optionsObject optionsDefinition contextStr verbose debug strictDefault,
   _getCleanOptions_fst optionsObject oc.optionsDefinition oc.contextStr oc.verbose oc.debug
     oc.strictDefault⟩

/-- Whether a schema declares an option of the given name. -/
def containsName (defs : Schema) (n : String) : Bool :=
  defs.any (fun p => p.1 == n)

/-- Whether the option names of a schema are pairwise distinct. -/
def namesNodup : Schema → Bool
  | [] => true
  | (m, _) :: rest => !containsName rest m && namesNodup rest

/-- A declared option's name is found by `containsName`. -/
theorem containsName_of_mem (defs : Schema) (n : String) (d : OptionDef)
    (hmem : (n, d) ∈ defs) : containsName defs n = true := by
  simp only [containsName, List.any_eq_true]
  exact ⟨(n, d), hmem, by simp⟩

/-- If the per-option processing of any declared option on its supplied
value errors, the whole engine run errors. -/
theorem getClean_isError_of_mem (raw : Obj) (defs : Schema) (contextStr : String)
    (verbose debug strictDefault : Bool) (n : String) (d : OptionDef)
    (hmem : (n, d) ∈ defs)
    (herr : (processOption n d (jsGet raw n) contextStr verbose debug
        strictDefault).2.isError = true) :
    (_getCleanOptions raw defs contextStr verbose debug strictDefault).2.isError = true := by
  induction defs with
  | nil => simp at hmem
  | cons hd rest ih =>
    obtain ⟨m, e⟩ := hd
    rw [_getCleanOptions]
    have hfst := processOption_fst m e (jsGet raw m) contextStr verbose debug strictDefault
    rcases hpe : processOption m e (jsGet raw m) contextStr verbose debug strictDefault
      with ⟨v1, r1⟩
    rw [hpe] at hfst
    simp only at hfst
    subst hfst
    have hobj : (if jsHas raw m = true then jsSet raw m (jsGet raw m) else raw) = raw := by
      split
      · exact jsSet_get_self raw m (by assumption)
      · rfl
    simp only [hpe, hobj]
    rcases List.mem_cons.mp hmem with heq | hmem'
    · injection heq with h1 h2
      subst h1
      subst h2
      rw [hpe] at herr
      cases r1 with
      | error e' => simp [Except.isError]
      | ok entry => simp [Except.isError] at herr
    · cases r1 with
      | error e' => simp [Except.isError]
      | ok entry =>
        have hr := ih hmem'
        rcases hrest : (_getCleanOptions raw rest contextStr verbose debug strictDefault).2
          with e' | restClean
        · simp [Except.isError]
        · rw [hrest] at hr
          simp [Except.isError] at hr

/-- In a successful engine run over a schema with pairwise-distinct
names, a declared option whose processing assigned a value contributes
exactly that value at its key in the clean result. -/
theorem getClean_ok_lookup (raw : Obj) (defs : Schema) (contextStr : String)
    (verbose debug strictDefault : Bool) (n : String) (d : OptionDef) (w : Value) (res : Obj)
    (hnodup : namesNodup defs = true)
    (hmem : (n, d) ∈ defs)
    (hok : (processOption n d (jsGet raw n) contextStr verbose debug strictDefault).2
      = .ok (some w))
    (hres : (_getCleanOptions raw defs contextStr verbose debug strictDefault).2 = .ok res) :
    jsGet res n = w := by
  induction defs generalizing res with
  | nil => simp at hmem
  | cons hd rest ih =>
    obtain ⟨m, e⟩ := hd
    simp only [namesNodup, Bool.and_eq_true, Bool.not_eq_true'] at hnodup
    obtain ⟨hc, hnr⟩ := hnodup
    rw [_getCleanOptions] at hres
    have hfst := processOption_fst m e (jsGet raw m) contextStr verbose debug strictDefault
    rcases hpe : processOption m e (jsGet raw m) contextStr verbose debug strictDefault
      with ⟨v1, r1⟩
    rw [hpe] at hfst
    simp only at hfst
    subst hfst
    have hobj : (if jsHas raw m = true then jsSet raw m (jsGet raw m) else raw) = raw := by
      split
      · exact jsSet_get_self raw m (by assumption)
      · rfl
    simp only [hpe, hobj] at hres
    rcases List.mem_cons.mp hmem with heq | hmem'
    · injection heq with h1 h2
      subst h1
      subst h2
      rw [hpe] at hok
      simp only at hok
      subst hok
      simp only [] at hres
      rcases hrest : (_getCleanOptions raw rest contextStr verbose debug strictDefault).2
        with e' | restClean
      · rw [hrest] at hres
        simp at hres
      · rw [hrest] at hres
        simp only [] at hres
        injection hres with hres
        subst hres
        simp [jsGet]
    · have hne : n ≠ m := by
        intro h
        subst h
        rw [containsName_of_mem rest n d hmem'] at hc
        simp at hc
      cases r1 with
      | error e' => simp at hres
      | ok entry =>
        simp only [] at hres
        rcases hrest : (_getCleanOptions raw rest contextStr verbose debug strictDefault).2
          with e' | restClean
        · rw [hrest] at hres
          simp at hres
        · rw [hrest] at hres
          simp only [] at hres
          injection hres with hres
          subst hres
          have hlook := ih restClean hnr hmem' hrest
          cases entry with
          | none => exact hlook
          | some w' =>
            simp only [jsGet, if_neg (Ne.symm hne)]
            exact hlook

/-- The option definition the constructor's meta-schema uses for each of
its three boolean flags. -/
def booleanFlagDef : OptionDef := mkDef { type := .str "boolean", default := .bool false }

/-- Under strict defaults, a supplied non-boolean value for a
boolean-typed defaulted option is a hard failure: the failed run-time
type check cannot fall back to the default. -/
theorem processOption_boolean_strict_error (n : String) (v : Value) (contextStr : String)
    (verbose debug : Bool) (hne : v.isUndef = false) (hty : typeOf v ≠ "boolean") :
    (processOption n booleanFlagDef v contextStr verbose debug true).2.isError = true := by
  rw [processOption]
  simp only [hne, Bool.false_eq_true, if_false]
  rw [processPresent_typed_eq n booleanFlagDef v contextStr verbose debug true "boolean"
    (by simp [booleanFlagDef, mkDef, OptionDef.base]) (by decide) (by decide)]
  rw [norm_boolean_eval]
  rw [typeCheckPhase_boolean_eq]
  have hcb : checkBooleanFunction n booleanFlagDef.base "boolean" v
      = (true, .plain (n ++ " should be a " ++ jsTemplate booleanFlagDef.base.type ++ ", "
          ++ sPrettyPrint (.str (typeOf v)) ++ " given")) := by
    simp [checkBooleanFunction, hty]
  rw [hcb]
  simp only []
  rw [customCheckPhase_fail_passthrough]
  rw [resolveOption_checkFail_error n booleanFlagDef v contextStr true _ none
    (Or.inl (by simp [effectiveStrictDefault, booleanFlagDef, mkDef, OptionDef.base]))]
  simp [Except.map, Except.isError]

/-- An absent boolean flag resolves to its declared default `false`. -/
theorem processOption_boolean_flag_absent (n : String) (contextStr : String)
    (verbose debug strictDefault : Bool) :
    (processOption n booleanFlagDef .undef contextStr verbose debug strictDefault).2
      = .ok (some (.bool false)) := by
  rw [processOption]
  simp [booleanFlagDef, mkDef, OptionDef.base, Value.isUndef]

/-- C10: the constructor validates its own configuration with the
strict-default flag hard-wired on, so a supplied non-boolean value for
`strictDefault`, `verbose` or `debug` makes construction raise instead
of silently falling back to `false`; the documented default `false` is
used only when the flag is absent. -/
theorem c10_constructor_strict_flag_validation (obj : Obj) (contextArg : Option String)
    (f : String) (hf : f = "strictDefault" ∨ f = "verbose" ∨ f = "debug") :
    ((jsGet obj f).isUndef = false → typeOf (jsGet obj f) ≠ "boolean" →
        (constructorCleanOptions obj contextArg).2.isError = true)
  ∧ ((jsGet obj f).isUndef = true →
      ∀ res, (constructorCleanOptions obj contextArg).2 = .ok res →
        jsGet res f = .bool false) := by
  have hmem : (f, booleanFlagDef) ∈ checkerOptionsDefinition := by
    rcases hf with rfl | rfl | rfl
    · exact List.mem_cons_of_mem _ (List.mem_cons_of_mem _ (List.mem_cons_self _ _))
    · exact List.mem_cons_of_mem _ (List.mem_cons_of_mem _ (List.mem_cons_of_mem _
        (List.mem_cons_self _ _)))
    · exact List.mem_cons_of_mem _ (List.mem_cons_of_mem _ (List.mem_cons_of_mem _
        (List.mem_cons_of_mem _ (List.mem_cons_self _ _))))
  constructor
  · intro hne hty
    simp only [constructorCleanOptions]
    exact getClean_isError_of_mem obj checkerOptionsDefinition _ false false true f
      booleanFlagDef hmem
      (processOption_boolean_strict_error f (jsGet obj f) _ false false hne hty)
  · intro habs res hres
    have hv : jsGet obj f = .undef := by
      cases h : jsGet obj f <;> simp_all [Value.isUndef]
    simp only [constructorCleanOptions] at hres
    exact getClean_ok_lookup obj checkerOptionsDefinition _ false false true f booleanFlagDef
      (.bool false) res rfl hmem
      (by rw [hv]; exact processOption_boolean_flag_absent f _ false false true) hres

/-- C10 (witness): a constructor configuration supplying the string
`'yes'` for `verbose` raises, while one leaving all three flags absent
succeeds with all flags cleaned to `false`; the flag conjuncts are the
validation theorem applied at `verbose`. -/
theorem c10_constructor_strict_flag_validation_witness :
    (constructorCleanOptions
        [("optionsDefinition", .obj "Object" []), ("context", .str "t"),
         ("verbose", .str "yes")] none).2.isError = true
  ∧ (∀ res, (constructorCleanOptions
        [("optionsDefinition", .obj "Object" []), ("context", .str "t")] none).2 = .ok res →
      jsGet res "verbose" = .bool false)
  ∧ (constructorCleanOptions
        [("optionsDefinition", .obj "Object" []), ("context", .str "t")] none).2
      = .ok [("optionsDefinition", .obj "Object" []), ("context", .str "t"),
             ("strictDefault", .bool false), ("verbose", .bool false),
             ("debug", .bool false)] := by
  refine ⟨?_, fun res h => ?_, ?_⟩
  · exact (c10_constructor_strict_flag_validation
      [("optionsDefinition", .obj "Object" []), ("context", .str "t"), ("verbose", .str "yes")]
      none "verbose" (Or.inr (Or.inl rfl))).1 (by decide) (by decide)
  · exact (c10_constructor_strict_flag_validation
      [("optionsDefinition", .obj "Object" []), ("context", .str "t")]
      none "verbose" (Or.inr (Or.inl rfl))).2 (by decide) res h
  · simp [constructorCleanOptions, checkerOptionsDefinition, _getCleanOptions, processOption,
      processPresent, typeCheckPhase, checkObject, checkArray, processElements,
      customCheckPhase, resolveOption, effectiveStrictDefault, checkBooleanFunction,
      checkNumber, checkNumberGreaterThanZero, checkNonZeroNumber, checkString, objectPreFail,
      arrayPreFail, jsGet, jsHas, jsSet, mkDef, Value.isUndef, OptionDef.base,
      OptionDef.objectDefinition, OptionDef.elementDefinition, typeOf, truthy, jsTemplate,
      sPrettyPrint, constructorName, instanceOf, JsMsg.render, _throwError, nesRewrite,
      _normalizeTypeString, jsToLowerCase, jsCharToLower, Except.map]
    rfl

/-- C8 (counterexample): idempotence fails even with no transform
functions at all.  With the schema `{a: {default: 5}}` (an option
without a `type`), a first run on the empty object yields `{a: 5}`, but
re-validating that output drops the supplied value (the type-undefined
`continue`), yielding `{}` — a different object. -/
theorem c8_idempotence_counterexample :
    (_getCleanOptions [] [("a", mkDef { default := .num 5 })] "ctx" false false false).2
      = .ok [("a", .num 5)]
  ∧ (_getCleanOptions [("a", .num 5)] [("a", mkDef { default := .num 5 })] "ctx"
      false false false).2 = .ok []
  ∧ ([("a", Value.num 5)] : Obj) ≠ ([] : Obj) := by
  refine ⟨?_, ?_, by simp⟩
  · simp [_getCleanOptions, processOption, processPresent, jsGet, jsHas, jsSet, mkDef,
      Value.isUndef, OptionDef.base]
  · simp [_getCleanOptions, processOption, processPresent, jsGet, jsHas, jsSet, mkDef,
      Value.isUndef, OptionDef.base]

/-- The type tokens whose check arm is a pure function of the definition
and the value (no nested schema dispatch). -/
def recognizedFlatType (t : String) : Bool :=
  t == "function" || t == "boolean" || t == "number" || t == "NumberGreaterThanZero"
    || t == "NonZeroNumber" || t == "string" || t == "object" || t == "array" || t == "custom"

/-- A definition safe for re-validation: a recognized flat type, no
nested schemas, no transform and no per-option strict-default override. -/
def flatSafeDef (d : OptionDef) : Bool :=
  d.objectDefinition.isNone && d.elementDefinition.isNone
    && d.base.transformFunction.isNone && d.base.strictDefault.isUndef
    && (match d.base.type with
        | .str ts => !(ts == "") && !(_normalizeTypeString ts == "NonEmptyString")
            && recognizedFlatType (_normalizeTypeString ts)
        | _ => false)

/-- A schema safe for re-validation: pairwise-distinct names, every
definition flat-safe. -/
def schemaFlatSafe (defs : Schema) : Bool :=
  namesNodup defs && defs.all (fun p => flatSafeDef p.2)

/-- A value whose `isUndef` test is positive is the undefined
sentinel. -/
theorem Value.eq_undef_of_isUndef (v : Value) (h : v.isUndef = true) : v = .undef := by
  cases v <;> simp_all [Value.isUndef]

/-- The effective strict-default is the schema-wide flag when the option
does not override it. -/
theorem effectiveStrictDefault_undef (d1 : OptionDef) (strictDefault : Bool)
    (h : d1.base.strictDefault = .undef) :
    effectiveStrictDefault d1 strictDefault = strictDefault := by
  simp [effectiveStrictDefault, h]

/-- Resolution on the success path with no assigned value and no
transform keeps the raw value. -/
theorem resolveOption_success_none (optionName : String) (d1 : OptionDef) (value : Value)
    (contextStr : String) (strictDefault : Bool) (msg : JsMsg)
    (h : d1.base.transformFunction = none) :
    resolveOption optionName d1 value contextStr strictDefault false msg none = .ok value := by
  simp [resolveOption, h]

/-- On a recognized flat type token the type-check dispatch returns a
pure check verdict: no error, no assigned value, the raw value threaded
through. -/
theorem typeCheckPhase_flat (optionName : String) (d1 : OptionDef) (t : String) (value : Value)
    (contextStr : String) (verbose debug : Bool)
    (hod : d1.objectDefinition = none) (hed : d1.elementDefinition = none)
    (ht : recognizedFlatType t = true) :
    ∃ cf : Bool, ∃ cm : JsMsg,
      typeCheckPhase optionName d1 t value contextStr verbose debug
        = (value, .ok (cf, cm, none)) := by
  simp only [recognizedFlatType, Bool.or_eq_true, beq_iff_eq] at ht
  rcases ht with (((((((rfl | rfl) | rfl) | rfl) | rfl) | rfl) | rfl) | rfl) | rfl
  · exact ⟨(checkBooleanFunction optionName d1.base "function" value).1,
      (checkBooleanFunction optionName d1.base "function" value).2,
      by rw [typeCheckPhase]; simp⟩
  · exact ⟨(checkBooleanFunction optionName d1.base "boolean" value).1,
      (checkBooleanFunction optionName d1.base "boolean" value).2,
      by rw [typeCheckPhase]; simp⟩
  · exact ⟨(checkNumber optionName d1.base value).1, (checkNumber optionName d1.base value).2,
      by rw [typeCheckPhase_number_eq]⟩
  · exact ⟨(checkNumberGreaterThanZero optionName value).1,
      (checkNumberGreaterThanZero optionName value).2, by rw [typeCheckPhase]; simp⟩
  · exact ⟨(checkNonZeroNumber optionName value).1, (checkNonZeroNumber optionName value).2,
      by rw [typeCheckPhase]; simp⟩
  · exact ⟨(checkString optionName d1.base value).1, (checkString optionName d1.base value).2,
      by rw [typeCheckPhase_string_eq]⟩
  · rcases hpre : objectPreFail optionName d1.base value with _ | m
    · exact ⟨false, .plain "", by
        rw [typeCheckPhase_object_eq, hod, checkObject.eq_def, hpre]⟩
    · exact ⟨true, m, by
        rw [typeCheckPhase_object_eq, hod, checkObject.eq_def, hpre]⟩
  · rcases hpre : arrayPreFail optionName d1.base value with ⟨mo, maxRes⟩
    rcases mo with _ | m
    · exact ⟨maxRes.1, maxRes.2, by
        rw [typeCheckPhase_array_eq, hed, checkArray.eq_def, hpre]⟩
    · exact ⟨true, m, by
        rw [typeCheckPhase_array_eq, hed, checkArray.eq_def, hpre]⟩
  · exact ⟨false, .plain "", by rw [typeCheckPhase]; simp⟩

/-- Unpacking of `flatSafeDef`. -/
theorem flatSafeDef_spec (d : OptionDef) (h : flatSafeDef d = true) :
    d.objectDefinition = none ∧ d.elementDefinition = none
  ∧ d.base.transformFunction = none ∧ d.base.strictDefault = .undef
  ∧ ∃ ts, d.base.type = .str ts ∧ ts ≠ "" ∧ _normalizeTypeString ts ≠ "NonEmptyString"
      ∧ recognizedFlatType (_normalizeTypeString ts) = true := by
  simp only [flatSafeDef, Bool.and_eq_true, Option.isNone_iff_eq_none] at h
  obtain ⟨⟨⟨⟨hod, hed⟩, htf⟩, hsd⟩, hty⟩ := h
  refine ⟨hod, hed, htf, Value.eq_undef_of_isUndef _ hsd, ?_⟩
  cases hbt : d.base.type <;> rw [hbt] at hty <;> simp at hty
  rename_i ts
  exact ⟨ts, rfl, hty.1.1, hty.1.2, hty.2⟩

/-- Re-processing a defined default of a flat-safe definition hands the
default back: either the checks accept it (and there is no transform to
change it), or they fail and the non-strict fallback re-assigns the very
same default. -/
theorem processOption_flat_default (n : String) (d : OptionDef) (ctx : String) (vb dbg : Bool)
    (hsafe : flatSafeDef d = true) (hdef : d.base.default.isUndef = false) :
    (processOption n d d.base.default ctx vb dbg false).2 = .ok (some d.base.default) := by
  obtain ⟨hod, hed, htf, hsd, ts, hbt, hts, hnes, hrec⟩ := flatSafeDef_spec d hsafe
  rw [processOption]
  simp only [hdef, Bool.false_eq_true, if_false]
  rw [processPresent_typed_eq n d d.base.default ctx vb dbg false ts hbt hts hnes]
  obtain ⟨cf, cm, htc⟩ := typeCheckPhase_flat n d (_normalizeTypeString ts) d.base.default ctx
    vb dbg hod hed hrec
  rw [htc]
  simp only []
  cases cf
  · rcases hcc : d.base.customCheck with _ | f
    · rw [customCheckPhase_none n d _ cm hcc]
      rw [resolveOption_success_none n d _ ctx false cm htf]
      simp [Except.map]
    · by_cases hf : f d.base.default = true
      · have hyes : customCheckPhase n d d.base.default false cm = (false, cm) := by
          simp [customCheckPhase, hcc, hf]
        rw [hyes, resolveOption_success_none n d _ ctx false cm htf]
        simp [Except.map]
      · have hfv : f d.base.default = false := by revert hf; cases f d.base.default <;> simp
        have hno : customCheckPhase n d d.base.default false cm
            = (true, .plain (n ++ " must be " ++ jsTemplate d.base.customCheckDescription
                ++ ", " ++ sPrettyPrint d.base.default ++ " given")) := by
          simp [customCheckPhase, hcc, hfv]
        rw [hno]
        rw [resolveOption_checkFail_default n d _ ctx false _ none
          (by rw [effectiveStrictDefault_undef d false hsd]) hdef]
        simp [Except.map]
  · rw [customCheckPhase_fail_passthrough]
    rw [resolveOption_checkFail_default n d _ ctx false cm none
      (by rw [effectiveStrictDefault_undef d false hsd]) hdef]
    simp [Except.map]

/-- Per-option idempotence for a flat-safe definition: whatever value a
first (non-strict) pass assigned, a second pass on that value assigns it
unchanged. -/
theorem processOption_flat_idem (n : String) (d : OptionDef) (v w : Value) (ctx : String)
    (vb dbg : Bool) (hsafe : flatSafeDef d = true)
    (h : (processOption n d v ctx vb dbg false).2 = .ok (some w)) :
    (processOption n d w ctx vb dbg false).2 = .ok (some w) := by
  obtain ⟨hod, hed, htf, hsd, ts, hbt, hts, hnes, hrec⟩ := flatSafeDef_spec d hsafe
  have h0 := h
  by_cases hv : v.isUndef = true
  · rw [processOption, if_pos hv] at h
    rcases hq : d.base.required
    · rw [hq] at h
      simp only [Bool.false_eq_true, if_false] at h
      rcases hdq : d.base.default.isUndef
      · rw [hdq] at h
        simp only [Bool.false_eq_true, if_false] at h
        injection h with h
        injection h with h
        subst h
        exact processOption_flat_default n d ctx vb dbg hsafe hdq
      · rw [hdq] at h
        simp at h
    · rw [hq] at h
      simp at h
  · have hne : v.isUndef = false := by revert hv; cases v.isUndef <;> simp
    rw [processOption] at h
    simp only [hne, Bool.false_eq_true, if_false] at h
    rw [processPresent_typed_eq n d v ctx vb dbg false ts hbt hts hnes] at h
    obtain ⟨cf, cm, htc⟩ := typeCheckPhase_flat n d (_normalizeTypeString ts) v ctx vb dbg
      hod hed hrec
    rw [htc] at h
    simp only [] at h
    cases cf
    · rcases hcc : d.base.customCheck with _ | f
      · rw [customCheckPhase_none n d v cm hcc] at h
        rw [resolveOption_success_none n d v ctx false cm htf] at h
        simp only [Except.map] at h
        injection h with h
        injection h with h
        subst h
        exact h0
      · by_cases hf : f v = true
        · have hyes : customCheckPhase n d v false cm = (false, cm) := by
            simp [customCheckPhase, hcc, hf]
          rw [hyes, resolveOption_success_none n d v ctx false cm htf] at h
          simp only [Except.map] at h
          injection h with h
          injection h with h
          subst h
          exact h0
        · have hfv : f v = false := by revert hf; cases f v <;> simp
          have hno : customCheckPhase n d v false cm
              = (true, .plain (n ++ " must be " ++ jsTemplate d.base.customCheckDescription
                  ++ ", " ++ sPrettyPrint v ++ " given")) := by
            simp [customCheckPhase, hcc, hfv]
          rw [hno] at h
          rcases hdq : d.base.default.isUndef
          · rw [resolveOption_checkFail_default n d v ctx false _ none
              (by rw [effectiveStrictDefault_undef d false hsd]) hdq] at h
            simp only [Except.map] at h
            injection h with h
            injection h with h
            subst h
            exact processOption_flat_default n d ctx vb dbg hsafe hdq
          · rw [resolveOption_checkFail_error n d v ctx false _ none (Or.inr hdq)] at h
            simp [Except.map] at h
    · rw [customCheckPhase_fail_passthrough] at h
      rcases hdq : d.base.default.isUndef
      · rw [resolveOption_checkFail_default n d v ctx false cm none
          (by rw [effectiveStrictDefault_undef d false hsd]) hdq] at h
        simp only [Except.map] at h
        injection h with h
        injection h with h
        subst h
        exact processOption_flat_default n d ctx vb dbg hsafe hdq
      · rw [resolveOption_checkFail_error n d v ctx false cm none (Or.inr hdq)] at h
        simp [Except.map] at h

/-- A flat-safe definition never hits the type-undefined `continue`: a
successful per-option pass always assigns a value. -/
theorem processOption_flat_some (n : String) (d : OptionDef) (v : Value) (ctx : String)
    (vb dbg sd : Bool) (entry : Option Value) (hsafe : flatSafeDef d = true)
    (h : (processOption n d v ctx vb dbg sd).2 = .ok entry) : ∃ w, entry = some w := by
  obtain ⟨hod, hed, htf, hsd, ts, hbt, hts, hnes, hrec⟩ := flatSafeDef_spec d hsafe
  by_cases hv : v.isUndef = true
  · rw [processOption, if_pos hv] at h
    rcases hq : d.base.required
    · rw [hq] at h
      simp only [Bool.false_eq_true, if_false] at h
      rcases hdq : d.base.default.isUndef
      · rw [hdq] at h
        simp only [Bool.false_eq_true, if_false] at h
        injection h with h
        exact ⟨d.base.default, h.symm⟩
      · rw [hdq] at h
        simp at h
    · rw [hq] at h
      simp at h
  · have hne : v.isUndef = false := by revert hv; cases v.isUndef <;> simp
    rw [processOption] at h
    simp only [hne, Bool.false_eq_true, if_false] at h
    rw [processPresent_typed_eq n d v ctx vb dbg sd ts hbt hts hnes] at h
    obtain ⟨cf, cm, htc⟩ := typeCheckPhase_flat n d (_normalizeTypeString ts) v ctx vb dbg
      hod hed hrec
    rw [htc] at h
    simp only [] at h
    rcases hr : resolveOption n d v ctx sd (customCheckPhase n d v cf cm).1
        (customCheckPhase n d v cf cm).2 none with e | u
    · rw [hr] at h
      simp [Except.map] at h
    · rw [hr] at h
      simp only [Except.map] at h
      injection h with h
      exact ⟨u, h.symm⟩

/-- The verdict of an engine run depends on the raw object only through
the values of the declared option names. -/
theorem getClean_snd_congr (raw raw' : Obj) (defs : Schema) (contextStr : String)
    (verbose debug strictDefault : Bool)
    (hagree : ∀ p ∈ defs, jsGet raw p.1 = jsGet raw' p.1) :
    (_getCleanOptions raw defs contextStr verbose debug strictDefault).2
      = (_getCleanOptions raw' defs contextStr verbose debug strictDefault).2 := by
  induction defs with
  | nil =>
    conv_lhs => rw [_getCleanOptions]
    conv_rhs => rw [_getCleanOptions]
  | cons hd rest ih =>
    obtain ⟨m, e⟩ := hd
    have hm : jsGet raw m = jsGet raw' m := hagree (m, e) (List.mem_cons_self _ _)
    conv_lhs => rw [_getCleanOptions]
    conv_rhs => rw [_getCleanOptions]
    rw [hm]
    have hfst := processOption_fst m e (jsGet raw' m) contextStr verbose debug strictDefault
    rcases hpe : processOption m e (jsGet raw' m) contextStr verbose debug strictDefault
      with ⟨v1, r1⟩
    rw [hpe] at hfst
    simp only at hfst
    subst hfst
    have hobj : (if jsHas raw m = true then jsSet raw m (jsGet raw' m) else raw) = raw := by
      rw [← hm]
      split
      · exact jsSet_get_self raw m (by assumption)
      · rfl
    have hobj' : (if jsHas raw' m = true then jsSet raw' m (jsGet raw' m) else raw') = raw' := by
      split
      · exact jsSet_get_self raw' m (by assumption)
      · rfl
    simp only [hpe, hobj, hobj']
    have ihr := ih (fun p hp => hagree p (List.mem_cons_of_mem _ hp))
    cases r1 with
    | error e' => simp
    | ok entry =>
      simp only []
      rcases hr1 : (_getCleanOptions raw rest contextStr verbose debug strictDefault).2
        with e' | rc
      · rw [hr1] at ihr
        rw [← ihr]
      · rw [hr1] at ihr
        rw [← ihr]

/-- C8 (amended): re-validation is idempotent for flat-safe schemas —
pairwise-distinct option names, every definition with a recognized
non-nested type, no transform function and no per-option strict-default
override — under the non-strict global default: feeding a successful
run's clean object back through the engine returns that object
unchanged. -/
theorem c8_flat_revalidation_idempotent (raw clean : Obj) (defs : Schema)
    (contextStr : String) (verbose debug : Bool)
    (hsafe : schemaFlatSafe defs = true)
    (h : (_getCleanOptions raw defs contextStr verbose debug false).2 = .ok clean) :
    (_getCleanOptions clean defs contextStr verbose debug false).2 = .ok clean := by
  induction defs generalizing raw clean with
  | nil =>
    rw [_getCleanOptions] at h
    simp only [] at h
    injection h with h
    subst h
    rw [_getCleanOptions]
  | cons hd rest ih =>
    obtain ⟨m, e⟩ := hd
    simp only [schemaFlatSafe, namesNodup, List.all_cons, Bool.and_eq_true,
      Bool.not_eq_true'] at hsafe
    obtain ⟨⟨hc, hnr⟩, he, hall⟩ := hsafe
    have hsafe_rest : schemaFlatSafe rest = true := by
      simp only [schemaFlatSafe, Bool.and_eq_true]
      exact ⟨hnr, hall⟩
    rw [_getCleanOptions] at h
    have hfst := processOption_fst m e (jsGet raw m) contextStr verbose debug false
    rcases hpe : processOption m e (jsGet raw m) contextStr verbose debug false with ⟨v1, r1⟩
    rw [hpe] at hfst
    simp only at hfst
    subst hfst
    have hobj : (if jsHas raw m = true then jsSet raw m (jsGet raw m) else raw) = raw := by
      split
      · exact jsSet_get_self raw m (by assumption)
      · rfl
    simp only [hpe, hobj] at h
    cases r1 with
    | error e' => simp at h
    | ok entry =>
      simp only [] at h
      obtain ⟨w, rfl⟩ := processOption_flat_some m e (jsGet raw m) contextStr verbose debug
        false entry he (by rw [hpe])
      rcases hrr : (_getCleanOptions raw rest contextStr verbose debug false).2
        with e' | restClean
      · rw [hrr] at h
        simp at h
      · rw [hrr] at h
        simp only [] at h
        injection h with h
        subst h
        rw [_getCleanOptions]
        have hget : jsGet ((m, w) :: restClean) m = w := by simp [jsGet]
        rw [hget]
        have hidem := processOption_flat_idem m e (jsGet raw m) w contextStr verbose debug
          he (by rw [hpe])
        have hfst2 := processOption_fst m e w contextStr verbose debug false
        rcases hp2 : processOption m e w contextStr verbose debug false with ⟨v2, r2⟩
        rw [hp2] at hfst2 hidem
        simp only at hfst2 hidem
        subst v2
        subst hidem
        have hobj2 : (if jsHas ((m, w) :: restClean) m = true
            then jsSet ((m, w) :: restClean) m w else ((m, w) :: restClean))
            = ((m, w) :: restClean) := by
          simp [jsHas, jsSet]
        simp only [hp2, hobj2]
        have hcongr := getClean_snd_congr ((m, w) :: restClean) restClean rest contextStr
          verbose debug false (fun p hp => by
            have hne : m ≠ p.1 := by
              intro hh
              have hcm : containsName rest p.1 = true := containsName_of_mem rest p.1 p.2 hp
              rw [← hh, hc] at hcm
              simp at hcm
            simp [jsGet, if_neg hne])
        have hih := ih raw restClean hsafe_rest hrr
        rw [hcongr.trans hih]

/-- C8 (witness): the flat schema `{option1: {type: 'number', min: 0,
max: 20, default: 1}}` is flat-safe; a first non-strict run on
`{option1: -1}` falls back to the default, yielding `{option1: 1}`, and
re-validating that output returns it unchanged — by the idempotence
theorem applied to the first run. -/
theorem c8_flat_revalidation_idempotent_witness :
    schemaFlatSafe [("option1",
        mkDef { type := .str "number", min := some 0, max := some 20, default := .num 1 })]
      = true
  ∧ (_getCleanOptions [("option1", .num (-1))]
      [("option1",
        mkDef { type := .str "number", min := some 0, max := some 20, default := .num 1 })]
      "ctx" false false false).2 = .ok [("option1", .num 1)]
  ∧ (_getCleanOptions [("option1", .num 1)]
      [("option1",
        mkDef { type := .str "number", min := some 0, max := some 20, default := .num 1 })]
      "ctx" false false false).2 = .ok [("option1", .num 1)] := by
  have h1 : (_getCleanOptions [("option1", .num (-1))]
      [("option1",
        mkDef { type := .str "number", min := some 0, max := some 20, default := .num 1 })]
      "ctx" false false false).2 = .ok [("option1", .num 1)] := by
    simp [_getCleanOptions, processOption, processPresent, typeCheckPhase, customCheckPhase,
      resolveOption, effectiveStrictDefault, checkNumber, jsGet, jsHas, jsSet, mkDef,
      Value.isUndef, OptionDef.base, OptionDef.objectDefinition, OptionDef.elementDefinition,
      typeOf, truthy, _normalizeTypeString, jsToLowerCase, jsCharToLower, Except.map]
  exact ⟨by decide, h1,
    c8_flat_revalidation_idempotent [("option1", .num (-1))] [("option1", .num 1)]
      [("option1",
        mkDef { type := .str "number", min := some 0, max := some 20, default := .num 1 })]
      "ctx" false false (by decide) h1⟩
